import Mathlib

/-!
# Verification of the antigravity-claude-proxy request pipeline

Shallow embedding of the proxy's validators (`src/utils/validators.js`),
the `/v1/messages` route (`src/routes/messages.js`), the local gateway
(`src/gateway.js`), the Anthropic→OpenAI transcoder
(`src/transcoders/openai.js`), the Cloud-Code streaming dispatcher
(`cloudcode` streaming handler), and the two servers' route tables
(legacy monolithic server and the modular `src/server.js`).

JSON-decoded request bodies are modelled by the tree type `JVal`; JavaScript
numbers are modelled by `ℚ` (rationals) since all comparisons performed by the
code are exact and no claim involves floating-point rounding.  `undefined` is
modelled by `Option.none` at field-lookup sites (JSON decoding can never
produce `undefined` inside a value).  Property access on `null` — which throws
a `TypeError` in JavaScript — is modelled by `jsGet` as yielding `undefined`;
the sites of `validateMessages` where such an access is reachable (a `null`
element of an array `tools` or `system`, `thinking: null`, or a `null` body)
are captured by the companion predicate `validateMessagesThrows`, and
`validateMessagesRun`/`routeMessagesRun` model the full run including the
thrown `TypeError` (answered 500 `api_error` by the route's catch).  Every
other property access performed by the validators sits behind a falsiness or
`typeof` guard in the source, so on non-throwing runs `jsGet`-as-`undefined`
is exact.
-/

set_option autoImplicit false

namespace Proxy

/-- A JSON value as produced by `express.json()` body parsing. -/
inductive JVal where
  | null
  | bool (b : Bool)
  | num (q : ℚ)
  | str (s : String)
  | arr (items : List JVal)
  | obj (fields : List (String × JVal))
  deriving BEq

/-- JavaScript truthiness of a possibly-undefined value (`none` = `undefined`).
`undefined`, `null`, `false`, `0` and `""` are falsy; objects and arrays
(including empty ones) are truthy.  (JSON has no `NaN`.) -/
def truthy : Option JVal → Bool
  | Option.none => false
  | Option.some JVal.null => false
  | Option.some (JVal.bool b) => b
  | Option.some (JVal.num q) => q != 0
  | Option.some (JVal.str s) => s != ""
  | Option.some (JVal.arr _) => true
  | Option.some (JVal.obj _) => true

/-- JavaScript property lookup `v[k]`: `none` models `undefined`.
Lookup on primitives yields `undefined`; on `null` the source throws a
`TypeError` instead — the reachable such sites are enumerated by
`validateMessagesThrows` (see the module comment), and theorems about whole
runs carry a non-throwing hypothesis. -/
def jsGet (v : JVal) (k : String) : Option JVal :=
  match v with
  | JVal.obj fields => (fields.find? (fun f => f.1 == k)).map (fun f => f.2)
  | _ => Option.none

/-- `typeof v === 'object'` for a defined value (true for objects, arrays and
`null`, exactly as in JavaScript). -/
def typeofObject : JVal → Bool
  | JVal.null => true
  | JVal.arr _ => true
  | JVal.obj _ => true
  | _ => false

/-- `typeof v === 'string'`. -/
def typeofString : JVal → Bool
  | JVal.str _ => true
  | _ => false

/-- `typeof v === 'number'`. -/
def typeofNumber : JVal → Bool
  | JVal.num _ => true
  | _ => false

/-- `typeof v === 'boolean'`. -/
def typeofBoolean : JVal → Bool
  | JVal.bool _ => true
  | _ => false

/-- `Array.isArray(v)`. -/
def isArrayJ : JVal → Bool
  | JVal.arr _ => true
  | _ => false

/-- Keys that indicate prototype pollution attempts
(`DANGEROUS_KEYS` in `src/utils/validators.js`). -/
def DANGEROUS_KEYS : List String := ["__proto__", "constructor", "prototype"]

/-! ### String primitives

`String.startsWith`, `String.toLower` and `String.trim` of the Lean core
library do not reduce inside the kernel, so the embedding uses the following
character-list implementations of the corresponding JavaScript operations. -/

/-- Whether `pat` is a prefix of `s` (on character lists). -/
def charsHavePrefix : List Char → List Char → Bool
  | _, [] => true
  | [], _ :: _ => false
  | c :: cs, p :: ps => c == p && charsHavePrefix cs ps

/-- Whether `pat` occurs as a contiguous segment of `s`. -/
def charsContain (s pat : List Char) : Bool :=
  charsHavePrefix s pat ||
    (match s with
     | [] => false
     | _ :: rest => charsContain rest pat)

/-- Substring containment, the embedding of JS `String.prototype.includes`. -/
def containsSubstring (s pat : String) : Bool :=
  charsContain s.toList pat.toList

/-- `s.startsWith(p)`. -/
def strStartsWith (s p : String) : Bool :=
  charsHavePrefix s.toList p.toList

/-- ASCII lower-casing of one character (JS `toLowerCase` restricted to
ASCII, which covers every model name the code compares). -/
def jsCharToLower (c : Char) : Char :=
  if 'A' ≤ c && c ≤ 'Z' then Char.ofNat (c.toNat + 32) else c

/-- `s.toLowerCase()` (ASCII). -/
def strToLower (s : String) : String :=
  String.mk (s.toList.map jsCharToLower)

/-- JS whitespace as removed by `String.prototype.trim` (ASCII whitespace
plus NBSP and the BOM; exotic Unicode spaces are not modelled). -/
def isJsWhitespace (c : Char) : Bool :=
  c == ' ' || c == '\t' || c == '\n' || c == '\r' ||
    c.toNat == 11 || c.toNat == 12 || c.toNat == 160 || c.toNat == 65279

/-- `value.trim().length === 0`: every character is whitespace. -/
def trimmedEmpty (s : String) : Bool :=
  s.toList.all isJsWhitespace

/-- JS strict equality `v === <string literal>` for a possibly-undefined
value (used for the `===`/`includes` string comparisons of the source; any
non-string value compares unequal, as in JS). -/
def jsIsStr (v : Option JVal) (s : String) : Bool :=
  match v with
  | Option.some (JVal.str t) => t == s
  | _ => false

/-- The recursion of `hasPrototypePollution`, driven by explicit fuel so that
the kernel can evaluate it.  At fuel 0 the function answers `true`; with the
invariant `fuel = 51 - depth` this is exactly the `depth > 50` cut-off of the
source (every call with exhausted fuel has `depth ≥ 51`).  For an array,
every element is scanned at `depth + 1`; for an object, each key is tested
against `DANGEROUS_KEYS` first and then its value is scanned at `depth + 1`,
in source order with short-circuiting. -/
def hasPPFuel : Nat → JVal → Nat → Bool
  | 0, _, _ => true
  | fuel + 1, v, depth =>
      if depth > 50 then true
      else
        match v with
        | JVal.arr items => items.any (fun x => hasPPFuel fuel x (depth + 1))
        | JVal.obj fields =>
            fields.any (fun kv =>
              DANGEROUS_KEYS.contains kv.1 || hasPPFuel fuel kv.2 (depth + 1))
        | _ => false

/-- `hasPrototypePollution(obj, seen, depth)` from `src/utils/validators.js`.

The `seen`-set cycle detection of the source is dropped: bodies decoded from
JSON are trees, so no cycle can occur and `seen.has(obj)` is always false.
The fuel `51 - depth` is exactly the number of recursion levels available
before the `depth > 50` cut-off fires, so this computes the source function
at every depth. -/
def hasPrototypePollution (v : JVal) (depth : Nat) : Bool :=
  hasPPFuel (51 - depth) v depth

mutual
/-- Whether a dangerous key occurs anywhere in the tree (at any depth).
This is the claim-side predicate; it ignores the depth cut-off. -/
def containsDangerousKey : JVal → Bool
  | JVal.null => false
  | JVal.bool _ => false
  | JVal.num _ => false
  | JVal.str _ => false
  | JVal.arr items => containsDangerousKeyList items
  | JVal.obj fields => containsDangerousKeyFields fields

def containsDangerousKeyList : List JVal → Bool
  | [] => false
  | x :: xs => containsDangerousKey x || containsDangerousKeyList xs

def containsDangerousKeyFields : List (String × JVal) → Bool
  | [] => false
  | (k, v) :: fs =>
      DANGEROUS_KEYS.contains k || containsDangerousKey v ||
        containsDangerousKeyFields fs
end

mutual
/-- Depth of the deepest node of a JSON tree: primitives have depth 0, a
container's depth is one more than the deepest child (an empty container has
depth 0).  `hasPrototypePollution` rejects exactly when some node sits at
recursion depth 51, i.e. when this exceeds 50. -/
def maxNodeDepth : JVal → Nat
  | JVal.null => 0
  | JVal.bool _ => 0
  | JVal.num _ => 0
  | JVal.str _ => 0
  | JVal.arr items => maxNodeDepthList items
  | JVal.obj fields => maxNodeDepthFields fields

def maxNodeDepthList : List JVal → Nat
  | [] => 0
  | x :: xs => max (maxNodeDepth x + 1) (maxNodeDepthList xs)

def maxNodeDepthFields : List (String × JVal) → Nat
  | [] => 0
  | (_, v) :: fs => max (maxNodeDepth v + 1) (maxNodeDepthFields fs)
end

end Proxy

namespace Proxy

/-! ## `src/utils/validators.js` — limits, type validators, block validators -/

/-- Allowed model-name prefixes (`isAllowedModel` in `src/utils/validators.js`).
Note that `gemma-` is NOT in this list. -/
def allowedModelPrefixes : List String :=
  ["claude-", "gemini-", "gpt-os-", "gpt-4-", "local-", "lmstudio-", "deepseek-", "qwen-"]

/-- `isAllowedModel(modelId)`: falsy or non-string model IDs are not allowed;
otherwise the lowercased ID must start with one of the allowed prefixes. -/
def isAllowedModel (modelId : Option JVal) : Bool :=
  match modelId with
  | Option.some (JVal.str s) =>
      if s == "" then false
      else allowedModelPrefixes.any (fun p => strStartsWith (strToLower s) p)
  | _ => false

/-! Validation limits (`LIMITS` in `src/utils/validators.js`).  String lengths
are measured in characters (the JS source counts UTF-16 code units; the
difference only matters for astral-plane characters, which no claim uses). -/

def MAX_MESSAGE_LENGTH : Nat := 2000000
def MAX_MESSAGES : Nat := 500
def MAX_BLOCKS_PER_MESSAGE : Nat := 1000
def MAX_TOOLS : Nat := 100
def MAX_TOOL_NAME_LENGTH : Nat := 256
def MAX_SYSTEM_PROMPT_LENGTH : Nat := 100000
def MAX_TOKENS_UPPER : Nat := 200000
def MAX_TOKENS_DEFAULT : Nat := 8192
def MAX_IMAGE_SIZE : Nat := 10000000
def MAX_SIGNATURE_LENGTH : Nat := 10000

/-- `isNonEmptyString(value, maxLength)`: a string whose trimmed form is
non-empty and, when a max length is given, whose length does not exceed it. -/
def isNonEmptyString (v : Option JVal) (maxLength : Option Nat) : Bool :=
  match v with
  | Option.some (JVal.str s) =>
      if trimmedEmpty s then false
      else
        match maxLength with
        | Option.some m => !(s.length > m)
        | Option.none => true
  | _ => false

/-- `isPositiveInt(value, min, max)`: a number that is an integer within
`[min, max]`. -/
def isPositiveInt (v : Option JVal) (lo hi : ℚ) : Bool :=
  match v with
  | Option.some (JVal.num q) =>
      q.den == 1 && !(decide (q < lo)) && !(decide (hi < q))
  | _ => false

/-- `isNumberInRange(value, min, max)`: a (non-NaN) number within `[min, max]`.
(JSON cannot encode `NaN`, so the `Number.isNaN` guard has no counterpart.) -/
def isNumberInRange (v : Option JVal) (lo hi : ℚ) : Bool :=
  match v with
  | Option.some (JVal.num q) => !(decide (q < lo)) && !(decide (hi < q))
  | _ => false

/-- Result of one block/content check (`{valid, error?}` in the source). -/
inductive VCheck where
  | ok
  | fail (error : String)

/-- `/^image\/(jpeg|png|gif|webp)$/` matches exactly these four strings. -/
def imageMediaTypeOk (s : String) : Bool :=
  s == "image/jpeg" || s == "image/png" || s == "image/gif" || s == "image/webp"

/-- Decimal display of a JS number.  For integers this matches JS
`Number.prototype.toString`; for non-integers the rendering differs (`"1/2"`
vs `"0.5"`), which no claim observes — it is only fed to the media-type
pattern, which a numeric string can never match either way. -/
def ratToDisplay (q : ℚ) : String :=
  if q.den == 1 then toString q.num else toString q

mutual
/-- JavaScript `String(v)` coercion as applied by `RegExp.test`. -/
def jsToString : JVal → String
  | JVal.null => "null"
  | JVal.bool true => "true"
  | JVal.bool false => "false"
  | JVal.num q => ratToDisplay q
  | JVal.str s => s
  | JVal.arr items => String.intercalate "," (jsToStringElems items)
  | JVal.obj _ => "[object Object]"

/-- Elements of `Array.prototype.toString`: `null` renders as the empty
string inside an array. -/
def jsToStringElems : List JVal → List String
  | [] => []
  | JVal.null :: rest => "" :: jsToStringElems rest
  | v :: rest => jsToString v :: jsToStringElems rest
end

/-- `new URL(s)` success, modelled as: a non-empty ASCII-alpha-led scheme
followed by `:`.  (Special-scheme host requirements are not modelled; no
claim involves `url`-sourced image blocks.) -/
def validURLString (s : String) : Bool :=
  match s.splitOn ":" with
  | scheme :: _ :: _ =>
      match scheme.toList with
      | c :: cs => c.isAlpha && cs.all (fun ch => ch.isAlphanum || ch == '+' || ch == '.' || ch == '-')
      | [] => false
  | _ => false

/-- One character of the tool-name class `[a-zA-Z0-9_-]`. -/
def toolNameCharOk (c : Char) : Bool :=
  ('a' ≤ c && c ≤ 'z') || ('A' ≤ c && c ≤ 'Z') || ('0' ≤ c && c ≤ '9') || c == '_' || c == '-'

/-- `/^[a-zA-Z0-9_-]+$/.test(s)`: non-empty and every character in the class. -/
def toolNameOk (s : String) : Bool :=
  s != "" && s.toList.all toolNameCharOk

/-- `validateTextBlock(block)`. -/
def validateTextBlock (block : JVal) : VCheck :=
  if !jsIsStr (jsGet block "type") "text" then
    VCheck.fail "Invalid text block type"
  else
    match jsGet block "text" with
    | Option.some (JVal.str s) =>
        if s.length > MAX_MESSAGE_LENGTH then
          VCheck.fail ("Text exceeds " ++ toString MAX_MESSAGE_LENGTH ++ " character limit")
        else VCheck.ok
    | _ => VCheck.fail "Text must be a string"

/-- The body of `validateImageBlock` once `source` has been extracted:
`source.type` dispatch, base64 data size and media-type checks, url check. -/
def validateImageSource (source : JVal) : VCheck :=
  if !(jsIsStr (jsGet source "type") "base64" || jsIsStr (jsGet source "type") "url") then
    VCheck.fail "Image source type must be base64 or url"
  else if jsIsStr (jsGet source "type") "base64" then
    match jsGet source "data" with
    | Option.some (JVal.str d) =>
        if d.length > MAX_IMAGE_SIZE then
          VCheck.fail "Image exceeds 10MB size limit"
        else
          match jsGet source "media_type" with
          | Option.none => VCheck.ok
          | Option.some mt =>
              if truthy (Option.some mt) && !imageMediaTypeOk (jsToString mt) then
                VCheck.fail "Invalid image media type"
              else VCheck.ok
    | _ => VCheck.fail "Image data must be a string"
  else
    match jsGet source "url" with
    | Option.some (JVal.str u) =>
        if validURLString u then VCheck.ok else VCheck.fail "Invalid image URL"
    | _ => VCheck.fail "Image URL must be a string"

/-- `validateImageBlock(block)`.  Note: `document` blocks are dispatched here
by `validateContentBlock` but then fail the `type !== 'image'` re-check. -/
def validateImageBlock (block : JVal) : VCheck :=
  if !jsIsStr (jsGet block "type") "image" then
    VCheck.fail "Invalid image block type"
  else if !truthy (jsGet block "source") || !(match jsGet block "source" with
      | Option.some v => typeofObject v
      | Option.none => false) then
    VCheck.fail "Image source is required"
  else
    match jsGet block "source" with
    | Option.none => VCheck.fail "Image source is required"
    | Option.some source => validateImageSource source

/-- `validateToolUseBlock(block)`. -/
def validateToolUseBlock (block : JVal) : VCheck :=
  if !jsIsStr (jsGet block "type") "tool_use" then
    VCheck.fail "Invalid tool_use block type"
  else if !isNonEmptyString (jsGet block "id") (Option.some 128) then
    VCheck.fail "tool_use.id must be a non-empty string (max 128 chars)"
  else
    match jsGet block "name" with
    | Option.some (JVal.str n) =>
        if !isNonEmptyString (Option.some (JVal.str n)) (Option.some MAX_TOOL_NAME_LENGTH) then
          VCheck.fail "tool_use.name must be a non-empty string"
        else if !toolNameOk n then
          VCheck.fail "tool_use.name contains invalid characters"
        else
          match jsGet block "input" with
          | Option.none => VCheck.ok
          | Option.some v =>
              if typeofObject v then VCheck.ok
              else VCheck.fail "tool_use.input must be an object"
    | _ => VCheck.fail "tool_use.name must be a non-empty string"

/-- `validateToolResultBlock(block)`. -/
def validateToolResultBlock (block : JVal) : VCheck :=
  if !jsIsStr (jsGet block "type") "tool_result" then
    VCheck.fail "Invalid tool_result block type"
  else if !isNonEmptyString (jsGet block "tool_use_id") (Option.some 128) then
    VCheck.fail "tool_result.tool_use_id must be a non-empty string"
  else
    match jsGet block "content" with
    | Option.some v =>
        if !(typeofString v || isArrayJ v) then
          VCheck.fail "tool_result.content must be string or array"
        else
          match jsGet block "is_error" with
          | Option.none => VCheck.ok
          | Option.some e =>
              if typeofBoolean e then VCheck.ok
              else VCheck.fail "tool_result.is_error must be boolean"
    | Option.none =>
        match jsGet block "is_error" with
        | Option.none => VCheck.ok
        | Option.some e =>
            if typeofBoolean e then VCheck.ok
            else VCheck.fail "tool_result.is_error must be boolean"

/-- `validateThinkingBlock(block)`.  Note: `redacted_thinking` blocks are also
dispatched here and then fail the `type !== 'thinking'` re-check. -/
def validateThinkingBlock (block : JVal) : VCheck :=
  if !jsIsStr (jsGet block "type") "thinking" then
    VCheck.fail "Invalid thinking block type"
  else
    match jsGet block "thinking" with
    | Option.some (JVal.str _) =>
        match jsGet block "signature" with
        | Option.none => VCheck.ok
        | Option.some (JVal.str sig) =>
            if sig.length > MAX_SIGNATURE_LENGTH then
              VCheck.fail "thinking.signature exceeds maximum length"
            else VCheck.ok
        | Option.some _ => VCheck.fail "thinking.signature must be a string"
    | _ => VCheck.fail "thinking.thinking must be a string"

/-- `validateContentBlock(block)`: dispatch on `block.type`, accepting unknown
tags for forward compatibility. -/
def validateContentBlock (block : JVal) : VCheck :=
  if !truthy (Option.some block) || !typeofObject block then
    VCheck.fail "Content block must be an object"
  else
    match jsGet block "type" with
    | Option.some (JVal.str "text") => validateTextBlock block
    | Option.some (JVal.str "image") => validateImageBlock block
    | Option.some (JVal.str "document") => validateImageBlock block
    | Option.some (JVal.str "tool_use") => validateToolUseBlock block
    | Option.some (JVal.str "tool_result") => validateToolResultBlock block
    | Option.some (JVal.str "thinking") => validateThinkingBlock block
    | Option.some (JVal.str "redacted_thinking") => validateThinkingBlock block
    | _ => VCheck.ok

/-- The indexed loop inside `validateMessageContent` over an array of blocks. -/
def validateBlocksFrom (blocks : List JVal) (i : Nat) : VCheck :=
  match blocks with
  | [] => VCheck.ok
  | b :: bs =>
      match validateContentBlock b with
      | VCheck.fail e => VCheck.fail ("content[" ++ toString i ++ "]: " ++ e)
      | VCheck.ok => validateBlocksFrom bs (i + 1)

/-- `validateMessageContent(content)`: string content is length-checked,
array content is block-checked, anything else is rejected. -/
def validateMessageContent : JVal → VCheck
  | JVal.str s =>
      if s.length > MAX_MESSAGE_LENGTH then
        VCheck.fail "Message content exceeds maximum length"
      else VCheck.ok
  | JVal.arr blocks =>
      if blocks.length > MAX_BLOCKS_PER_MESSAGE then
        VCheck.fail ("Message has too many blocks (max " ++ toString MAX_BLOCKS_PER_MESSAGE ++ ")")
      else validateBlocksFrom blocks 0
  | _ => VCheck.fail "Message content must be string or array"

end Proxy

namespace Proxy

/-! ## `validateMessages` (src/utils/validators.js lines 362-507)

The source pushes errors into a single `errors` array in a fixed order
(messages, model, max_tokens, temperature, top_p, top_k, stream, system,
tools, thinking); each section below produces that section's pushes. -/

/-- Role error of one message (`['user','assistant'].includes(msg.role)`). -/
def messageRoleErrors (msg : JVal) (i : Nat) : List String :=
  if jsIsStr (jsGet msg "role") "user" || jsIsStr (jsGet msg "role") "assistant" then []
  else ["messages[" ++ toString i ++ "].role: must be 'user' or 'assistant'"]

/-- Content error of one message. -/
def messageContentErrors (msg : JVal) (i : Nat) : List String :=
  match jsGet msg "content" with
  | Option.none => ["messages[" ++ toString i ++ "].content: is required"]
  | Option.some c =>
      match validateMessageContent c with
      | VCheck.ok => []
      | VCheck.fail e => ["messages[" ++ toString i ++ "]." ++ e]

/-- Errors pushed for one element of `messages` (index `i`). -/
def messageErrors (msg : JVal) (i : Nat) : List String :=
  if !truthy (Option.some msg) || !typeofObject msg then
    ["messages[" ++ toString i ++ "]: must be an object"]
  else messageRoleErrors msg i ++ messageContentErrors msg i

/-- The per-message loop starting at index `i`. -/
def messagesListErrors (msgs : List JVal) (i : Nat) : List String :=
  match msgs with
  | [] => []
  | m :: ms => messageErrors m i ++ messagesListErrors ms (i + 1)

/-- `messages` section: required / array / non-empty / limit / per-message. -/
def messagesErrors (body : JVal) : List String :=
  if !truthy (jsGet body "messages") then ["messages is required"]
  else
    match jsGet body "messages" with
    | Option.some (JVal.arr msgs) =>
        if msgs.length == 0 then ["messages cannot be empty"]
        else if msgs.length > MAX_MESSAGES then
          ["messages exceeds limit of " ++ toString MAX_MESSAGES]
        else messagesListErrors msgs 0
    | _ => ["messages must be an array"]

/-- `model` section (whitelist check, only when the field is present). -/
def modelErrors (body : JVal) : List String :=
  match jsGet body "model" with
  | Option.none => []
  | Option.some (JVal.str s) =>
      if isAllowedModel (Option.some (JVal.str s)) then []
      else ["model '" ++ s ++ "' is not allowed."]
  | Option.some _ => ["model must be a string"]

/-- `max_tokens` section. -/
def maxTokensErrors (body : JVal) : List String :=
  match jsGet body "max_tokens" with
  | Option.none => []
  | Option.some v =>
      if isPositiveInt (Option.some v) 1 (MAX_TOKENS_UPPER : ℚ) then []
      else ["max_tokens must be integer between 1 and " ++ toString MAX_TOKENS_UPPER]

/-- `temperature` section. -/
def temperatureErrors (body : JVal) : List String :=
  match jsGet body "temperature" with
  | Option.none => []
  | Option.some v =>
      if isNumberInRange (Option.some v) 0 2 then []
      else ["temperature must be number between 0 and 2"]

/-- `top_p` section. -/
def topPErrors (body : JVal) : List String :=
  match jsGet body "top_p" with
  | Option.none => []
  | Option.some v =>
      if isNumberInRange (Option.some v) 0 1 then []
      else ["top_p must be number between 0 and 1"]

/-- `top_k` section. -/
def topKErrors (body : JVal) : List String :=
  match jsGet body "top_k" with
  | Option.none => []
  | Option.some v =>
      if isPositiveInt (Option.some v) 1 500 then []
      else ["top_k must be integer between 1 and 500"]

/-- `stream` section. -/
def streamErrors (body : JVal) : List String :=
  match jsGet body "stream" with
  | Option.none => []
  | Option.some v =>
      if typeofBoolean v then [] else ["stream must be a boolean"]

/-- Per-block loop of the array form of `system`.  A `null` element makes
the source throw a `TypeError` at `block.type` (validators.js line 456)
rather than push this error; `systemThrows` captures that case, and this
list models only non-throwing runs (primitive elements yield `undefined`
faithfully). -/
def systemBlockErrors (blocks : List JVal) (i : Nat) : List String :=
  match blocks with
  | [] => []
  | b :: bs =>
      (if jsIsStr (jsGet b "type") "text" &&
          (match jsGet b "text" with
           | Option.some (JVal.str _) => true
           | _ => false) then []
       else ["system[" ++ toString i ++ "]: must be text block"]) ++
      systemBlockErrors bs (i + 1)

/-- `system` section: string with length cap, or array of text blocks. -/
def systemErrors (body : JVal) : List String :=
  match jsGet body "system" with
  | Option.none => []
  | Option.some (JVal.str s) =>
      if s.length > MAX_SYSTEM_PROMPT_LENGTH then
        ["system prompt exceeds maximum length"]
      else []
  | Option.some (JVal.arr blocks) => systemBlockErrors blocks 0
  | Option.some _ => ["system must be string or array"]

/-- Per-tool loop over `tools` (name presence and character class; no length
cap is applied here, unlike `tool_use` blocks).  A `null` element makes the
source throw a `TypeError` at `tool.name` (validators.js line 474) rather
than push this error; `toolsThrows` captures that case, and this list models
only non-throwing runs. -/
def toolDefErrors (tools : List JVal) (i : Nat) : List String :=
  match tools with
  | [] => []
  | t :: ts =>
      (match jsGet t "name" with
       | Option.some (JVal.str n) =>
           if n == "" then ["tools[" ++ toString i ++ "].name: must be a non-empty string"]
           else if !toolNameOk n then
             ["tools[" ++ toString i ++ "].name: contains invalid characters"]
           else []
       | _ => ["tools[" ++ toString i ++ "].name: must be a non-empty string"]) ++
      toolDefErrors ts (i + 1)

/-- `tools` section. -/
def toolsErrors (body : JVal) : List String :=
  match jsGet body "tools" with
  | Option.none => []
  | Option.some (JVal.arr ts) =>
      if ts.length > MAX_TOOLS then ["tools exceeds limit of " ++ toString MAX_TOOLS]
      else toolDefErrors ts 0
  | Option.some _ => ["tools must be an array"]

/-- `thinking` section.  `thinking: null` passes the `typeof !== 'object'`
guard (JavaScript has `typeof null === 'object'`, matching `typeofObject`)
and the source then throws a `TypeError` at `body.thinking.budget_tokens`
(validators.js line 487); `thinkingThrows` captures that case, and this
section models only non-throwing runs. -/
def thinkingErrors (body : JVal) : List String :=
  match jsGet body "thinking" with
  | Option.none => []
  | Option.some v =>
      if !typeofObject v then ["thinking must be an object"]
      else
        match jsGet v "budget_tokens" with
        | Option.none => []
        | Option.some b =>
            if isPositiveInt (Option.some b) 1000 100000 then []
            else ["thinking.budget_tokens must be integer between 1000 and 100000"]

/-- All error pushes of `validateMessages`, in source order. -/
def collectErrors (body : JVal) : List String :=
  messagesErrors body ++ modelErrors body ++ maxTokensErrors body ++
  temperatureErrors body ++ topPErrors body ++ topKErrors body ++
  streamErrors body ++ systemErrors body ++ toolsErrors body ++ thinkingErrors body

/-- Replace the value of key `k` in place, or append the pair at the end
(the behaviour of `{...body, k: v}`). -/
def setFieldList : List (String × JVal) → String → JVal → List (String × JVal)
  | [], k, nv => [(k, nv)]
  | (k', v') :: fs, k, nv =>
      if k' == k then (k', nv) :: fs else (k', v') :: setFieldList fs k nv

/-- `{...v, k: nv}` (a non-object spread yields an object with only `k`;
unreachable on the claims' valid paths). -/
def setField (v : JVal) (k : String) (nv : JVal) : JVal :=
  match v with
  | JVal.obj fields => JVal.obj (setFieldList fields k nv)
  | _ => JVal.obj [(k, nv)]

/-- The validated data with applied defaults:
`{...body, stream: body.stream ?? false, max_tokens: Math.min(body.max_tokens ?? 8192, 8192)}`.
On the valid path `stream` is absent or boolean and `max_tokens` absent or a
number, so `??` only fires for absent fields; `Math.min` of a non-number
(NaN) is unreachable and defaults here. -/
def applyDefaults (body : JVal) : JVal :=
  let streamVal : JVal :=
    match jsGet body "stream" with
    | Option.none => JVal.bool false
    | Option.some JVal.null => JVal.bool false
    | Option.some v => v
  let mtVal : ℚ :=
    match jsGet body "max_tokens" with
    | Option.some (JVal.num q) => min q (MAX_TOKENS_DEFAULT : ℚ)
    | _ => (MAX_TOKENS_DEFAULT : ℚ)
  setField (setField body "stream" streamVal) "max_tokens" (JVal.num mtVal)

/-- Result of `validateMessages`:
`{valid:false, errors}` or `{valid:true, errors:null, data}`. -/
inductive VResult where
  | invalid (errors : List String)
  | ok (data : JVal)

/-- `validateMessages(body)`: pollution check first (single error), then all
sections' errors; on success the defaults are applied. -/
def validateMessages (body : JVal) : VResult :=
  if hasPrototypePollution body 0 then
    VResult.invalid ["Prototype pollution attempt detected"]
  else if (collectErrors body).isEmpty then VResult.ok (applyDefaults body)
  else VResult.invalid (collectErrors body)

end Proxy

namespace Proxy

/-! ## `src/routes/messages.js` — the modular `/v1/messages` handler -/

/-- Outcome of the `POST /v1/messages` route handler, up to the dispatch
decision.  `localGateway` means `handleLocalRequest(req, res)` is invoked
WITHOUT any validation; `typeError` models the `TypeError` thrown by
`gwModel.startsWith` when `model` is truthy but not a string (caught by the
outer handler as a 500 `api_error`); `badRequest` is the 400
`invalid_request_error` response carrying `validation.errors[0]`;
`dispatch` carries the model id and validated data handed to
`sendMessage`/`sendMessageStream`. -/
inductive RouteOutcome where
  | localGateway
  | typeError
  | badRequest (message : String)
  | dispatch (modelId : String) (data : JVal)
  deriving BEq

/-- Default model substituted when the validated body has no (truthy) model
(`model || 'claude-3-5-sonnet-20241022'` in the handler). -/
def DEFAULT_MODEL : String := "claude-3-5-sonnet-20241022"

/-- The validation-and-dispatch tail of the handler (after the gateway
check). -/
def routeValidated (body : JVal) : RouteOutcome :=
  match validateMessages body with
  | VResult.invalid errors => RouteOutcome.badRequest (errors.headD "")
  | VResult.ok data =>
      let modelId :=
        match jsGet data "model" with
        | Option.some (JVal.str s) => if s != "" then s else DEFAULT_MODEL
        | _ => DEFAULT_MODEL
      RouteOutcome.dispatch modelId data

/-- `router.post('/messages')` of `src/routes/messages.js`: the gateway check
`gwModel && (gwModel.startsWith('local-') || gwModel.startsWith('gemma-'))`
runs BEFORE validation and is case-sensitive. -/
def routeMessages (body : JVal) : RouteOutcome :=
  match jsGet body "model" with
  | Option.some (JVal.str s) =>
      if s != "" && (strStartsWith s "local-" || strStartsWith s "gemma-") then
        RouteOutcome.localGateway
      else routeValidated body
  | Option.some v =>
      if truthy (Option.some v) then RouteOutcome.typeError
      else routeValidated body
  | Option.none => routeValidated body

/-- `v === null`. -/
def isNullJ : JVal → Bool
  | JVal.null => true
  | _ => false

/-- The `system` loop throws a `TypeError` at `block.type`
(validators.js line 456) iff `system` is an array with a `null` element. -/
def systemThrows (body : JVal) : Bool :=
  match jsGet body "system" with
  | Option.some (JVal.arr blocks) => blocks.any isNullJ
  | _ => false

/-- The `tools` loop throws a `TypeError` at `tool.name`
(validators.js line 474) iff `tools` is an array within the 100-entry limit
(over the limit the loop is skipped) with a `null` element. -/
def toolsThrows (body : JVal) : Bool :=
  match jsGet body "tools" with
  | Option.some (JVal.arr ts) =>
      if ts.length > MAX_TOOLS then false else ts.any isNullJ
  | _ => false

/-- `thinking: null` passes the `typeof body.thinking !== 'object'` guard
(`typeof null === 'object'` in JavaScript) and `body.thinking.budget_tokens`
(validators.js line 487) then throws a `TypeError`. -/
def thinkingThrows (body : JVal) : Bool :=
  match jsGet body "thinking" with
  | Option.some JVal.null => true
  | _ => false

/-- Whether evaluating `validateMessages(body)` throws a `TypeError` instead
of returning: a `null` body (the unguarded `body.messages` access — reached
only when the pollution check, which runs first and returns early, does not
fire), a `null` element of an array `system`, a `null` element of an
in-limit array `tools`, or `thinking: null`.  Every other property access in
`validateMessages` and the block validators sits behind a falsiness or
`typeof` guard and yields `undefined` faithfully. -/
def validateMessagesThrows (body : JVal) : Bool :=
  if hasPrototypePollution body 0 then false
  else isNullJ body || systemThrows body || toolsThrows body || thinkingThrows body

/-- The run of `validateMessages(body)` including the throwing paths:
`none` models a thrown `TypeError`, which escapes to the route's catch and
is answered as a 500 `api_error` (its message matches none of `parseError`'s
markers). -/
def validateMessagesRun (body : JVal) : Option VResult :=
  if validateMessagesThrows body then Option.none
  else Option.some (validateMessages body)

/-- The route handler including the validation-time `TypeError` paths:
`none` models the exception reaching the catch (500 `api_error`).  The
gateway check runs before validation, so `localGateway` is decided before
any throwing site. -/
def routeMessagesRun (body : JVal) : Option RouteOutcome :=
  match jsGet body "model" with
  | Option.some (JVal.str s) =>
      if s != "" && (strStartsWith s "local-" || strStartsWith s "gemma-") then
        Option.some RouteOutcome.localGateway
      else if validateMessagesThrows body then Option.none
      else Option.some (routeValidated body)
  | Option.some v =>
      if truthy (Option.some v) then Option.some RouteOutcome.typeError
      else if validateMessagesThrows body then Option.none
      else Option.some (routeValidated body)
  | Option.none =>
      if validateMessagesThrows body then Option.none
      else Option.some (routeValidated body)

/-! ## `parseError` (src/routes/messages.js lines 22-54)

Only `errorType` and `statusCode` are modelled; the human `errorMessage`
phrasing (regex-extracted reset time and model name) is not read by any
claim. -/

/-- The `(errorType, statusCode)` pair computed by `parseError`. -/
structure ParsedError where
  errorType : String
  statusCode : Nat
  deriving BEq

/-- `parseError(error)`: the 401/UNAUTHENTICATED test runs FIRST; the
429/RESOURCE_EXHAUSTED/QUOTA_EXHAUSTED quota branch maps to 400
`invalid_request_error`. -/
def parseError (message : String) : ParsedError :=
  if containsSubstring message "401" || containsSubstring message "UNAUTHENTICATED" then
    { errorType := "authentication_error", statusCode := 401 }
  else if containsSubstring message "429" || containsSubstring message "RESOURCE_EXHAUSTED" ||
      containsSubstring message "QUOTA_EXHAUSTED" then
    { errorType := "invalid_request_error", statusCode := 400 }
  else if containsSubstring message "invalid_request_error" ||
      containsSubstring message "INVALID_ARGUMENT" then
    { errorType := "invalid_request_error", statusCode := 400 }
  else if containsSubstring message "overloaded_error" || containsSubstring message "503" then
    { errorType := "overloaded_error", statusCode := 503 }
  else
    { errorType := "api_error", statusCode := 500 }

/-- The non-streaming error path of the handler (lines 162-216): when headers
are not yet sent the response status and `error.type` come from `parseError`
unchanged (the auth-refresh logic only rewrites the message text). -/
def nonStreamingErrorResponse (message : String) : Nat × String :=
  ((parseError message).statusCode, (parseError message).errorType)

/-- The `RESOURCE_EXHAUSTED` error message thrown by `sendMessageStream` when
the pool-wide wait exceeds the budget (cloudcode streaming handler lines
1132-1134); `durationText` is `formatDuration(allWaitMs)` and `isoResetTime`
is `new Date(Date.now() + allWaitMs).toISOString()`. -/
def resourceExhaustedMessage (model durationText isoResetTime : String) : String :=
  "RESOURCE_EXHAUSTED: Rate limited on " ++ model ++ ". Quota will reset after " ++
    durationText ++ ". Next available: " ++ isoResetTime

/-! ## Route tables of the two servers -/

/-- Routes registered by the LEGACY monolithic server (the `app.get`/`app.post`
registrations of the legacy `server.js`, in order), restricted to exact paths;
`:id`-parameterised session routes and static/web-UI mounts are collapsed
into the catch-all, which none of the claims' paths reach. -/
inductive LegacyRoute where
  | health | accountLimits | refreshToken | listModels
  | countTokens          -- POST /v1/messages/count_tokens → always 501
  | messages
  | cliDetect | cliLaunch | cliCommands | sessionsList
  | notFound             -- app.use('*') → 404 not_found_error
  deriving BEq

/-- Route matching of the legacy server. -/
def legacyRoute (method path : String) : LegacyRoute :=
  if method == "GET" && path == "/health" then LegacyRoute.health
  else if method == "GET" && path == "/account-limits" then LegacyRoute.accountLimits
  else if method == "POST" && path == "/refresh-token" then LegacyRoute.refreshToken
  else if method == "GET" && path == "/v1/models" then LegacyRoute.listModels
  else if method == "POST" && path == "/v1/messages/count_tokens" then LegacyRoute.countTokens
  else if method == "POST" && path == "/v1/messages" then LegacyRoute.messages
  else if method == "GET" && path == "/cli/detect" then LegacyRoute.cliDetect
  else if method == "POST" && path == "/cli/launch" then LegacyRoute.cliLaunch
  else if method == "GET" && path == "/cli/commands" then LegacyRoute.cliCommands
  else if method == "GET" && path == "/sessions" then LegacyRoute.sessionsList
  else LegacyRoute.notFound

/-- The legacy `count_tokens` handler: a constant 501 `not_implemented`
response, independent of the request body. -/
def legacyCountTokensHandler (body : JVal) : Nat × String :=
  match body with
  | _ => (501, "not_implemented")

/-- Routes of the MODULAR server (`src/server.js`): `/v1` mounts only
`routes/messages.js` (POST `/messages`) and `routes/models.js`
(GET `/models`); the remaining mounts live under `/api/...` and
`/account/...`, so no other registered route matches a `/v1/...` path.
There is NO `count_tokens` route. -/
inductive ModularRoute where
  | health
  | messages             -- POST /v1/messages (routes/messages.js)
  | models               -- GET /v1/models (routes/models.js)
  | redirect (status : Nat) (location : String)
  | notFound             -- app.use('*') → 404 not_found_error
  deriving BEq

/-- Route matching of the modular server for `/v1`-prefixed and legacy-redirect
paths (`/api/...` and `/account/...` sub-routers are collapsed into the
catch-all; none of their paths starts with `/v1/`). -/
def modularRoute (method path : String) : ModularRoute :=
  if method == "GET" && path == "/health" then ModularRoute.health
  else if method == "POST" && path == "/v1/messages" then ModularRoute.messages
  else if method == "GET" && path == "/v1/models" then ModularRoute.models
  else if method == "GET" && path == "/account-limits" then
    ModularRoute.redirect 301 "/account/account-limits"
  else if method == "POST" && path == "/refresh-token" then
    ModularRoute.redirect 307 "/account/refresh-token"
  else if method == "GET" && path == "/sessions" then
    ModularRoute.redirect 301 "/api/sessions"
  else if method == "POST" && path == "/api/launch" then
    ModularRoute.redirect 307 "/api/launcher/launch"
  else ModularRoute.notFound

/-- The catch-all response of both servers. -/
def notFoundResponse : Nat × String := (404, "not_found_error")

end Proxy

namespace Proxy

/-! ## `src/transcoders/openai.js` — Anthropic ↔ OpenAI shapes -/

/-- Anthropic stream event deltas. -/
inductive ADelta where
  | textDelta (text : String)
  | inputJsonDelta (partialJson : String)
  deriving BEq

/-- The `content_block` payload of a `content_block_start` event. -/
inductive BlockStart where
  | textBlock (text : String)
  | toolUseBlock (id name : String)   -- `input` is always `{}` at start
  deriving BEq

/-- Anthropic SSE events, with the payload fields the claims observe.
`content_block_start`/`content_block_delta` carry an optional index because
`src/gateway.js` invokes the stream transcoder WITHOUT its `index` argument,
leaving it `undefined` (dropped from the serialized JSON). -/
inductive AEvent where
  | message_start (id : String) (model : String)
  | content_block_start (index : Option Nat) (block : BlockStart)
  | content_block_delta (index : Option Nat) (delta : ADelta)
  | content_block_stop (index : Nat)
  | message_delta (stopReason : String)
  | message_stop
  deriving BEq

/-- One entry of `delta.tool_calls` in an OpenAI stream chunk. -/
structure ToolCallDelta where
  index : Nat
  id : Option String
  functionName : Option String
  functionArguments : Option String
  deriving BEq

/-- `choices[0].delta` of an OpenAI stream chunk. -/
structure OpenAIDelta where
  content : Option String
  tool_calls : List ToolCallDelta
  deriving BEq

/-- An OpenAI stream chunk, reduced to `choices?.[0]?.delta`
(`none` models a chunk with no delta, e.g. a usage chunk). -/
structure OpenAIChunk where
  delta : Option OpenAIDelta
  deriving BEq

/-- The `function.arguments` case of the tool-call tail: an
`input_json_delta` when the entry carries (truthy) argument text. -/
def toolCallArgsEvent (tc : ToolCallDelta) : Option AEvent :=
  match tc.functionArguments with
  | Option.some args =>
      if args != "" then
        Option.some (AEvent.content_block_delta (Option.some tc.index)
          (ADelta.inputJsonDelta args))
      else Option.none
  | Option.none => Option.none

/-- The tool-call tail of `fromOpenAIStream`: `content_block_start` when the
first tool-call entry carries a (truthy) id, `input_json_delta` when it
carries (truthy) argument text, otherwise `null`. -/
def fromOpenAIToolCalls (d : OpenAIDelta) : Option AEvent :=
  match d.tool_calls with
  | [] => Option.none
  | tc :: _ =>
      match tc.id with
      | Option.some tid =>
          if tid != "" then
            Option.some (AEvent.content_block_start (Option.some tc.index)
              (BlockStart.toolUseBlock tid (tc.functionName.getD "")))
          else toolCallArgsEvent tc
      | Option.none => toolCallArgsEvent tc

/-- `OpenAITranscoder.fromOpenAIStream(openaiChunk, index)`: truthy text
content becomes a `text_delta` at the caller-supplied index; otherwise the
first `tool_calls` entry is translated; otherwise `null`. -/
def fromOpenAIStream (chunk : OpenAIChunk) (index : Option Nat) : Option AEvent :=
  match chunk.delta with
  | Option.none => Option.none
  | Option.some d =>
      match d.content with
      | Option.some text =>
          if text != "" then
            Option.some (AEvent.content_block_delta index (ADelta.textDelta text))
          else fromOpenAIToolCalls d
      | Option.none => fromOpenAIToolCalls d

/-- `streamResponse` of `src/gateway.js` (`type = 'openai'`), modelled on the
sequence of successfully parsed `data:` JSON chunks (the raw SSE line
splitting, the dropped `data: [DONE]` lines, and silently-ignored parse
errors are abstracted into this input list).  The transcoder is invoked as
`transcoderFn(json)` — with no second argument, so the index is `undefined`.
On `end`, the literal `message_stop` frame is written.  NO `message_start`
event is ever produced on this path. -/
def gatewayStreamEvents (chunks : List OpenAIChunk) : List AEvent :=
  (chunks.filterMap (fun c => fromOpenAIStream c Option.none)) ++ [AEvent.message_stop]

/-! ### `OpenAITranscoder.toOpenAI` — request direction -/

/-- One hexadecimal digit (lowercase), for `\u00XX` escapes. -/
def hexDigit (n : Nat) : String :=
  if n == 0 then "0" else if n == 1 then "1" else if n == 2 then "2"
  else if n == 3 then "3" else if n == 4 then "4" else if n == 5 then "5"
  else if n == 6 then "6" else if n == 7 then "7" else if n == 8 then "8"
  else if n == 9 then "9" else if n == 10 then "a" else if n == 11 then "b"
  else if n == 12 then "c" else if n == 13 then "d" else if n == 14 then "e"
  else "f"

/-- JSON escape of one character, as in `JSON.stringify`. -/
def jsonEscapeChar (c : Char) : String :=
  if c == '"' then "\\\""
  else if c == '\\' then "\\\\"
  else if c == '\n' then "\\n"
  else if c == '\r' then "\\r"
  else if c == '\t' then "\\t"
  else if c.toNat == 8 then "\\b"
  else if c.toNat == 12 then "\\f"
  else if c.toNat < 32 then "\\u00" ++ hexDigit (c.toNat / 16) ++ hexDigit (c.toNat % 16)
  else String.singleton c

/-- JSON string literal for `s`. -/
def jsonQuote (s : String) : String :=
  "\"" ++ String.join (s.toList.map jsonEscapeChar) ++ "\""

mutual
/-- `JSON.stringify` of a JSON tree (compact form, insertion-ordered keys).
Non-integer number rendering is the `ratToDisplay` abstraction; integers
match JS exactly and no claim stringifies a non-integer. -/
def jsonStringify : JVal → String
  | JVal.null => "null"
  | JVal.bool true => "true"
  | JVal.bool false => "false"
  | JVal.num q => ratToDisplay q
  | JVal.str s => jsonQuote s
  | JVal.arr items => "[" ++ String.intercalate "," (jsonStringifyItems items) ++ "]"
  | JVal.obj fields => "\x7b" ++ String.intercalate "," (jsonStringifyFields fields) ++ "\x7d"

def jsonStringifyItems : List JVal → List String
  | [] => []
  | v :: vs => jsonStringify v :: jsonStringifyItems vs

def jsonStringifyFields : List (String × JVal) → List String
  | [] => []
  | (k, v) :: fs => (jsonQuote k ++ ":" ++ jsonStringify v) :: jsonStringifyFields fs
end

/-- A content block of an Anthropic message as read by `toOpenAI` (the fields
it accesses: `type`, `text`, `id`, `name`, `input`, `tool_use_id`,
`content`).  `rawString` models a bare string element of a content array;
`otherBlock` any block whose type tag the transcoder does not handle
(image, thinking, ...). -/
inductive ABlock where
  | text (text : String)
  | tool_use (id name : String) (input : Option JVal)
  | tool_result (toolUseId : String) (content : Option JVal)
  | rawString (s : String)
  | otherBlock (btype : String)
  deriving BEq

/-- Message content: a plain string or an array of blocks. -/
inductive AContent where
  | str (s : String)
  | blocks (bs : List ABlock)
  deriving BEq

/-- An Anthropic message as read by `toOpenAI`. -/
structure AMessage where
  role : String
  content : AContent
  deriving BEq

/-- A tool definition (`tools[]` entry). -/
structure AToolDef where
  name : String
  description : Option JVal
  input_schema : Option JVal
  deriving BEq

/-- `tool_choice` as read by `toOpenAI` (dispatch on `tool_choice.type`). -/
inductive AToolChoice where
  | auto
  | any
  | tool (name : String)
  | otherChoice (ctype : String)
  deriving BEq

/-- The Anthropic-format request fields destructured by `toOpenAI`. -/
structure ARequest where
  system : Option JVal
  messages : List AMessage
  model : Option JVal
  stream : Option JVal
  temperature : Option JVal
  max_tokens : Option JVal
  stop_sequences : Option JVal
  tools : Option (List AToolDef)
  tool_choice : Option AToolChoice
  deriving BEq

/-- An OpenAI `tool_calls[]` entry
`{id, type:'function', function:{name, arguments}}`; `arguments` is
`JSON.stringify(input)` and is absent when `input` is absent. -/
structure OToolCall where
  id : String
  name : String
  arguments : Option String
  deriving BEq

/-- An OpenAI chat message produced by `toOpenAI`:
`sys` is `{role:'system', content}` with the RAW system value;
`plain` is `{role, content}` with string content;
`assistant` is the assistant shape with `content` string-or-null and
optional `tool_calls`; `toolResultMsg` is `{role:'tool', tool_call_id,
content}` (content absent when the tool_result had no content field). -/
inductive OMessage where
  | sys (content : JVal)
  | plain (role : String) (content : String)
  | assistant (content : Option String) (tool_calls : Option (List OToolCall))
  | toolResultMsg (tool_call_id : String) (content : Option String)
  deriving BEq

/-- The text collected for the leading message of the tool-result branch:
`.filter(c => c.type === 'text' || typeof c === 'string').map(c => c.text || c)`.
A text block whose text is `''` falls back to the block object itself, which
`join` coerces to `"[object Object]"`. -/
def toolResultTextPart : ABlock → Option String
  | ABlock.text t => Option.some (if t != "" then t else "[object Object]")
  | ABlock.rawString s => Option.some s
  | _ => Option.none

/-- Whether a content array contains a `tool_result` block. -/
def hasToolResultBlock (bs : List ABlock) : Bool :=
  bs.any (fun b => match b with
    | ABlock.tool_result _ _ => true
    | _ => false)

/-- `tool_use` → `tool_calls[]` entry. -/
def toolCallOfUse : ABlock → Option OToolCall
  | ABlock.tool_use tid name input =>
      Option.some { id := tid, name := name, arguments := input.map jsonStringify }
  | _ => Option.none

/-- `typeof tr.content === 'string' ? tr.content : JSON.stringify(tr.content)`
(`JSON.stringify(undefined)` is `undefined`, i.e. the field is absent). -/
def stringifyTRContent : Option JVal → Option String
  | Option.some (JVal.str s) => Option.some s
  | Option.some v => Option.some (jsonStringify v)
  | Option.none => Option.none

/-- One `{role:'tool', ...}` message per `tool_result` block, stringifying
non-string content. -/
def toolResultMsgs (bs : List ABlock) : List OMessage :=
  bs.filterMap (fun b => match b with
    | ABlock.tool_result tuId content =>
        Option.some (OMessage.toolResultMsg tuId (stringifyTRContent content))
    | _ => Option.none)

/-- The text of a block in the plain-user branch (`c.text || ''`). -/
def userBranchText : ABlock → String
  | ABlock.text t => t
  | _ => ""

/-- The text collected in the assistant branch
(`.filter(c => c.type === 'text').map(c => c.text).join('')`). -/
def assistantTexts (bs : List ABlock) : String :=
  String.join (bs.filterMap (fun b => match b with
    | ABlock.text t => Option.some t
    | _ => Option.none))

/-- The text collected for the leading message of the tool-result branch. -/
def toolResultTexts (bs : List ABlock) : String :=
  String.join (List.filterMap toolResultTextPart bs)

/-- The per-message conversion loop body of `toOpenAI`. -/
def convertMessage (msg : AMessage) : List OMessage :=
  match msg.content with
  | AContent.str s => [OMessage.plain msg.role s]
  | AContent.blocks bs =>
      if hasToolResultBlock bs then
        (if toolResultTexts bs != "" then [OMessage.plain msg.role (toolResultTexts bs)]
         else []) ++ toolResultMsgs bs
      else if msg.role == "assistant" then
        [OMessage.assistant
          (if assistantTexts bs != "" then Option.some (assistantTexts bs) else Option.none)
          (if (List.filterMap toolCallOfUse bs).length > 0 then
            Option.some (List.filterMap toolCallOfUse bs) else Option.none)]
      else
        [OMessage.plain msg.role (String.join (bs.map userBranchText))]

/-- OpenAI tool definition `{type:'function', function:{name, description,
parameters}}`. -/
structure OToolDef where
  name : String
  description : Option JVal
  parameters : Option JVal
  deriving BEq

/-- OpenAI `tool_choice` values emitted by `toOpenAI`. -/
inductive OToolChoice where
  | modeAuto                 -- "auto"
  | modeRequired             -- "required"
  | functionChoice (name : String)
  deriving BEq

/-- The `tool_choice` mapping: `auto→'auto'`, `any→'required'`,
`tool→{type:'function', function:{name}}`; other tags assign nothing. -/
def mapToolChoice : AToolChoice → Option OToolChoice
  | AToolChoice.auto => Option.some OToolChoice.modeAuto
  | AToolChoice.any => Option.some OToolChoice.modeRequired
  | AToolChoice.tool name => Option.some (OToolChoice.functionChoice name)
  | AToolChoice.otherChoice _ => Option.none

/-- The OpenAI request payload built by `toOpenAI`. -/
structure OpenAIRequest where
  messages : List OMessage
  model : Option JVal
  stream : Option JVal
  temperature : Option JVal
  max_tokens : Option JVal
  stop : Option JVal
  tools : Option (List OToolDef)
  tool_choice : Option OToolChoice
  deriving BEq

/-- `OpenAITranscoder.toOpenAI(anthropicBody)`. -/
def toOpenAI (req : ARequest) : OpenAIRequest :=
  let converted := (req.messages.map convertMessage).flatten
  let openAIMessages :=
    (if truthy req.system then [OMessage.sys (req.system.getD JVal.null)] else []) ++ converted
  { messages := openAIMessages
  , model := req.model
  , stream := req.stream
  , temperature := req.temperature
  , max_tokens := req.max_tokens
  , stop := req.stop_sequences
  , tools :=
      match req.tools with
      | Option.some ts =>
          if ts.length > 0 then
            Option.some (ts.map (fun t =>
              { name := t.name, description := t.description, parameters := t.input_schema }))
          else Option.none
      | Option.none => Option.none
  , tool_choice :=
      match req.tool_choice with
      | Option.some tc => mapToolChoice tc
      | Option.none => Option.none }

end Proxy

namespace Proxy

/-! ## Cloud-Code streaming dispatcher (`sendMessageStream`) -/

/-- `MAX_EMPTY_RESPONSE_RETRIES`.  Modelled from the spec: `constants.js` is
not among the provided sources; the spec fixes the value 3. -/
def MAX_EMPTY_RESPONSE_RETRIES : Nat := 3

/-- `MAX_WAIT_BEFORE_ERROR_MS`.  Modelled from the spec: `constants.js` is not
among the provided sources; the spec fixes the value 120000 ms. -/
def MAX_WAIT_BEFORE_ERROR_MS : Nat := 120000

/-- Outcome of streaming one HTTP response through `streamSSEResponse`.
Modelled from the spec: `sse-streamer.js`/`errors.js` are not among the
provided sources; per the spec an "empty response" is a stream that yields
`message_start` but no content blocks, surfaced as a distinguished thrown
error (`isEmptyResponseError`).  `thrown` covers every other stream error,
including the errors the retry code itself throws for non-2xx re-fetch
statuses. -/
inductive StreamAttempt where
  | ok (events : List AEvent)
  | emptyResponse
  | thrown (message : String)
  deriving BEq

/-- `emitEmptyResponseFallback(model)` (cloudcode streaming handler lines
1336-1375): the synthetic assistant message emitted after retry exhaustion.
`messageId` stands for the random `msg_<hex>` id. -/
def emitEmptyResponseFallback (model messageId : String) : List AEvent :=
  [ AEvent.message_start messageId model
  , AEvent.content_block_start (Option.some 0) (BlockStart.textBlock "")
  , AEvent.content_block_delta (Option.some 0)
      (ADelta.textDelta "[No response after retries - please try again]")
  , AEvent.content_block_stop 0
  , AEvent.message_delta "end_turn"
  , AEvent.message_stop ]

/-- Final outcome of the empty-response retry loop. -/
inductive LoopOutcome where
  | streamed (events : List AEvent)
  | errorThrown (message : String)
  deriving BEq

/-- One state of the retry loop of `sendMessageStream` (lines 1215-1273):
`attempt` is the outcome of streaming the current response, `retries` the
number of re-fetches performed so far.  An empty response with
`retries < MAX_EMPTY_RESPONSE_RETRIES` re-fetches the SAME url with the SAME
payload (`refetch (retries+1)` is the outcome of streaming that re-fetched
response); an empty response at the retry cap emits the synthetic fallback
message.  The second component of the result counts re-fetches. -/
def emptyRetryLoopAux (model messageId : String) (refetch : Nat → StreamAttempt) :
    StreamAttempt → Nat → LoopOutcome × Nat
  | StreamAttempt.ok evs, retries => (LoopOutcome.streamed evs, retries)
  | StreamAttempt.thrown m, retries => (LoopOutcome.errorThrown m, retries)
  | StreamAttempt.emptyResponse, retries =>
      if _h : retries < MAX_EMPTY_RESPONSE_RETRIES then
        emptyRetryLoopAux model messageId refetch (refetch (retries + 1)) (retries + 1)
      else
        (LoopOutcome.streamed (emitEmptyResponseFallback model messageId), retries)
  termination_by _attempt retries => MAX_EMPTY_RESPONSE_RETRIES - retries

/-- The retry loop started on the initial (2xx) response. -/
def emptyRetryLoop (model messageId : String) (first : StreamAttempt)
    (refetch : Nat → StreamAttempt) : LoopOutcome × Nat :=
  emptyRetryLoopAux model messageId refetch first 0

/-! ## Account pool state (spec-modelled) and the all-rate-limited branch -/

/-- Modelled from the spec: the per-(account,model) rate-limit record of §3
(`RateLimit`); the `account-manager` module is not among the provided
sources. -/
structure RateLimitEntry where
  rateLimited : Bool
  resetEpochMs : Nat
  deriving BEq

/-- Modelled from the spec: the account fields read by selection (§3
`Account`). -/
structure Account where
  email : String
  enabled : Bool
  isInvalid : Bool
  modelRateLimits : List (String × RateLimitEntry)
  deriving BEq

/-- The rate-limit entry of `a` for `model`, if set. -/
def rateLimitFor (a : Account) (model : String) : Option RateLimitEntry :=
  (a.modelRateLimits.find? (fun e => e.1 == model)).map (fun e => e.2)

/-- Modelled from the spec (§4.4 step 2): an account is excluded for `model`
at `now` iff its entry is set, marked, and `now < resetEpochMs`. -/
def isLimitedNow (a : Account) (model : String) (now : Nat) : Bool :=
  match rateLimitFor a model with
  | Option.some e => e.rateLimited && decide (now < e.resetEpochMs)
  | Option.none => false

/-- Modelled from the spec: `isAllRateLimited(model)` — every account in the
pool is currently limited for `model`. -/
def isAllRateLimited (pool : List Account) (model : String) (now : Nat) : Bool :=
  pool.all (fun a => isLimitedNow a model now)

/-- Modelled from the spec (§4.4 step 4): the remaining wait of one account
for `model` (zero when unlimited or already expired). -/
def waitTimeFor (a : Account) (model : String) (now : Nat) : Nat :=
  match rateLimitFor a model with
  | Option.some e => e.resetEpochMs - now
  | Option.none => 0

/-- Modelled from the spec (§4.4 step 4): `getMinWaitTimeMs(model)` — the
minimum wait across all accounts for `model`. -/
def getMinWaitTimeMs (pool : List Account) (model : String) (now : Nat) : Nat :=
  match pool.map (fun a => waitTimeFor a model now) with
  | [] => 0
  | w :: ws => ws.foldl min w

/-- Modelled from the spec: `clearExpiredLimits()` — drop every entry whose
reset time has passed. -/
def clearExpiredLimits (pool : List Account) (now : Nat) : List Account :=
  pool.map (fun a =>
    { a with modelRateLimits := a.modelRateLimits.filter (fun e => decide (now < e.2.resetEpochMs)) })

/-- Decision taken by the all-rate-limited branch. -/
inductive LimitedDecision where
  | throwExhausted (message : String)
  | sleepClearRepick (sleepMs : Nat)
  deriving BEq

/-- The all-rate-limited branch of `sendMessageStream` (cloudcode streaming
handler lines 1126-1142): compute `allWaitMs = getMinWaitTimeMs(model)`;
if it exceeds `MAX_WAIT_BEFORE_ERROR_MS`, throw `RESOURCE_EXHAUSTED`
immediately (no sleep); otherwise sleep exactly `allWaitMs`, then call
`clearExpiredLimits()` and `pickNext(model)`.  `durationText` and
`isoResetTime` stand for `formatDuration(allWaitMs)` and the ISO reset
timestamp interpolated into the error message. -/
def allRateLimitedBranch (pool : List Account) (model : String) (now : Nat)
    (durationText isoResetTime : String) : LimitedDecision :=
  let allWaitMs := getMinWaitTimeMs pool model now
  if allWaitMs > MAX_WAIT_BEFORE_ERROR_MS then
    LimitedDecision.throwExhausted (resourceExhaustedMessage model durationText isoResetTime)
  else
    LimitedDecision.sleepClearRepick allWaitMs

end Proxy

namespace Proxy

/-! ## Concrete request bodies used by witnesses and counterexamples -/

/-- `{role:'user', content: s}`. -/
def userMsg (s : String) : JVal :=
  JVal.obj [("role", JVal.str "user"), ("content", JVal.str s)]

/-- A minimal well-formed body for a given model. -/
def simpleBody (model : String) : JVal :=
  JVal.obj [("model", JVal.str model),
            ("messages", JVal.arr [userMsg "hi"]),
            ("max_tokens", JVal.num 10)]

/-- A body without a `model` field. -/
def noModelBody : JVal :=
  JVal.obj [("messages", JVal.arr [userMsg "hi"]), ("max_tokens", JVal.num 10)]

/-- A `local-` body carrying a nested `__proto__` key. -/
def pollutedLocalBody : JVal :=
  JVal.obj [("model", JVal.str "local-gemma"),
            ("messages", JVal.arr [userMsg "x"]),
            ("extra", JVal.obj [("a", JVal.obj
              [("__proto__", JVal.obj [("polluted", JVal.bool true)])])])]

/-- A Cloud-Code body carrying a top-level `__proto__` key. -/
def pollutedCloudBody : JVal :=
  JVal.obj [("model", JVal.str "claude-3"),
            ("messages", JVal.arr [userMsg "x"]),
            ("__proto__", JVal.obj [("polluted", JVal.bool true)])]

/-- A well-formed body whose model is `Gemma-2b` (capital G). -/
def gemmaCapBody : JVal := simpleBody "Gemma-2b"

/-- An OpenAI stream chunk whose delta carries the text "ok". -/
def gatewayOkChunk : OpenAIChunk :=
  { delta := Option.some { content := Option.some "ok", tool_calls := [] } }

/-- `message_start` event recognizer. -/
def isMessageStartEvent : AEvent → Bool
  | AEvent.message_start _ _ => true
  | _ => false

/-! ## C8 — `/v1/messages/count_tokens` -/

/-- Counterexample to claim C8: on the modular server (`src/server.js`) no
route matches `POST /v1/messages/count_tokens`, so the catch-all answers
404 `not_found_error`, not 501. -/
theorem C8_counterexample :
    modularRoute "POST" "/v1/messages/count_tokens" = ModularRoute.notFound ∧
    notFoundResponse = (404, "not_found_error") ∧
    notFoundResponse ≠ (501, "not_implemented") := by
  refine ⟨rfl, rfl, by decide⟩

/-- C8 (amended): the LEGACY monolithic server answers every
`POST /v1/messages/count_tokens` with 501 `not_implemented` regardless of the
request body, but the MODULAR server (`src/server.js`) registers no such
route and its catch-all answers 404 `not_found_error`. -/
theorem C8_count_tokens (body : JVal) :
    legacyRoute "POST" "/v1/messages/count_tokens" = LegacyRoute.countTokens ∧
    legacyCountTokensHandler body = (501, "not_implemented") ∧
    modularRoute "POST" "/v1/messages/count_tokens" = ModularRoute.notFound ∧
    notFoundResponse = (404, "not_found_error") :=
  ⟨rfl, rfl, rfl, rfl⟩

/-! ## C3 — gateway streaming events -/

/-- `toolCallArgsEvent` never produces a `message_start` event. -/
theorem toolCallArgsEvent_no_message_start (tc : ToolCallDelta) (e : AEvent)
    (h : toolCallArgsEvent tc = Option.some e) : isMessageStartEvent e = false := by
  unfold toolCallArgsEvent at h
  split at h
  · split at h
    · rw [Option.some.injEq] at h
      rw [← h]
      rfl
    · exact absurd h (by simp)
  · exact absurd h (by simp)

/-- `fromOpenAIToolCalls` never produces a `message_start` event. -/
theorem fromOpenAIToolCalls_no_message_start (d : OpenAIDelta) (e : AEvent)
    (h : fromOpenAIToolCalls d = Option.some e) : isMessageStartEvent e = false := by
  unfold fromOpenAIToolCalls at h
  split at h
  · exact absurd h (by simp)
  · split at h
    · split at h
      · rw [Option.some.injEq] at h
        rw [← h]
        rfl
      · exact toolCallArgsEvent_no_message_start _ e h
    · exact toolCallArgsEvent_no_message_start _ e h

/-- `fromOpenAIStream` never produces a `message_start` event. -/
theorem fromOpenAIStream_no_message_start (c : OpenAIChunk) (idx : Option Nat)
    (e : AEvent) (h : fromOpenAIStream c idx = Option.some e) :
    isMessageStartEvent e = false := by
  unfold fromOpenAIStream at h
  split at h
  · exact absurd h (by simp)
  · split at h
    · split at h
      · rw [Option.some.injEq] at h
        rw [← h]
        rfl
      · exact fromOpenAIToolCalls_no_message_start _ e h
    · exact fromOpenAIToolCalls_no_message_start _ e h

/-- Counterexample to claim C3: the local-gateway stream for a single `'ok'`
text chunk delivers exactly `content_block_delta` then `message_stop` — it
does NOT begin with a synthetic `message_start`. -/
theorem C3_counterexample :
    gatewayStreamEvents [gatewayOkChunk] =
      [AEvent.content_block_delta Option.none (ADelta.textDelta "ok"),
       AEvent.message_stop] ∧
    (gatewayStreamEvents [gatewayOkChunk]).any isMessageStartEvent = false := by
  constructor <;> rfl

/-- C3 (amended): every local-gateway stream ends with `message_stop` after
the upstream stream terminates, but NO synthetic `message_start` is ever
emitted on this path; the one-chunk `'ok'` stream yields exactly
`content_block_delta{text_delta,'ok'}` then `message_stop`. -/
theorem C3_gateway_stream (chunks : List OpenAIChunk) :
    (gatewayStreamEvents chunks).getLast? = Option.some AEvent.message_stop ∧
    (gatewayStreamEvents chunks).any isMessageStartEvent = false ∧
    gatewayStreamEvents [gatewayOkChunk] =
      [AEvent.content_block_delta Option.none (ADelta.textDelta "ok"),
       AEvent.message_stop] := by
  refine ⟨?_, ?_, rfl⟩
  · unfold gatewayStreamEvents
    rw [List.getLast?_append]
    rfl
  · unfold gatewayStreamEvents
    rw [List.any_append]
    have h1 : (chunks.filterMap (fun c => fromOpenAIStream c Option.none)).any
        isMessageStartEvent = false := by
      rw [List.any_eq_false]
      intro e he
      rcases List.mem_filterMap.mp he with ⟨c, _, hc⟩
      simp [fromOpenAIStream_no_message_start c Option.none e hc]
    rw [h1]
    rfl

/-! ## C5 — empty-response retries -/

/-- Re-fetch count bound for the retry loop, by fuel induction. -/
theorem emptyRetryLoopAux_count_le (model messageId : String)
    (refetch : Nat → StreamAttempt) :
    ∀ (k : Nat) (att : StreamAttempt) (r : Nat),
      MAX_EMPTY_RESPONSE_RETRIES - r ≤ k →
      (emptyRetryLoopAux model messageId refetch att r).2 ≤
        max r MAX_EMPTY_RESPONSE_RETRIES := by
  intro k
  induction k with
  | zero =>
    intro att r h
    cases att with
    | ok evs => simp [emptyRetryLoopAux]
    | thrown m => simp [emptyRetryLoopAux]
    | emptyResponse =>
      have : ¬ r < MAX_EMPTY_RESPONSE_RETRIES := by omega
      simp [emptyRetryLoopAux, this]
  | succ n ih =>
    intro att r h
    cases att with
    | ok evs => simp [emptyRetryLoopAux]
    | thrown m => simp [emptyRetryLoopAux]
    | emptyResponse =>
      by_cases hr : r < MAX_EMPTY_RESPONSE_RETRIES
      · rw [emptyRetryLoopAux]
        simp only [hr, dite_true]
        have hb := ih (refetch (r + 1)) (r + 1) (by omega)
        omega
      · simp [emptyRetryLoopAux, hr]

/-- C5: the empty-response retry loop re-fetches the same endpoint with the
same payload at most `MAX_EMPTY_RESPONSE_RETRIES = 3` times; when the initial
response and all three re-fetches stream empty, the client receives exactly
the six-event synthetic assistant message whose only text delta is
"[No response after retries - please try again]", framed as `message_start`,
`content_block_start`, `content_block_delta`, `content_block_stop`,
`message_delta`, `message_stop`. -/
theorem C5_empty_response_retries (model messageId : String) :
    (∀ (first : StreamAttempt) (refetch : Nat → StreamAttempt),
        (emptyRetryLoop model messageId first refetch).2 ≤ MAX_EMPTY_RESPONSE_RETRIES) ∧
    emptyRetryLoop model messageId StreamAttempt.emptyResponse
        (fun _ => StreamAttempt.emptyResponse) =
      (LoopOutcome.streamed (emitEmptyResponseFallback model messageId), 3) ∧
    emitEmptyResponseFallback model messageId =
      [ AEvent.message_start messageId model,
        AEvent.content_block_start (Option.some 0) (BlockStart.textBlock ""),
        AEvent.content_block_delta (Option.some 0)
          (ADelta.textDelta "[No response after retries - please try again]"),
        AEvent.content_block_stop 0,
        AEvent.message_delta "end_turn",
        AEvent.message_stop ] := by
  refine ⟨?_, ?_, rfl⟩
  · intro first refetch
    have h := emptyRetryLoopAux_count_le model messageId refetch
      MAX_EMPTY_RESPONSE_RETRIES first 0 (by omega)
    simpa [emptyRetryLoop] using h
  · unfold emptyRetryLoop
    rw [emptyRetryLoopAux]
    norm_num
    rw [emptyRetryLoopAux]
    norm_num
    rw [emptyRetryLoopAux]
    norm_num
    rw [emptyRetryLoopAux]
    norm_num [MAX_EMPTY_RESPONSE_RETRIES]

end Proxy

namespace Proxy

/-! ## C6 — quota exhaustion maps to HTTP 400 -/

/-- Counterexample to claim C6: a pool-exhaustion error whose ISO reset
timestamp carries milliseconds `.401` contains the substring `401`, which
`parseError` tests FIRST, so the handler answers 401 `authentication_error`
instead of 400. -/
theorem C6_counterexample :
    containsSubstring (resourceExhaustedMessage "claude-3-5-sonnet" "1m"
      "2026-01-01T00:00:00.401Z") "RESOURCE_EXHAUSTED" = true ∧
    nonStreamingErrorResponse (resourceExhaustedMessage "claude-3-5-sonnet" "1m"
      "2026-01-01T00:00:00.401Z") = (401, "authentication_error") := by
  constructor <;> rfl

/-- C6 (amended): an error whose message indicates 429, RESOURCE_EXHAUSTED or
QUOTA_EXHAUSTED is answered with HTTP 400 `invalid_request_error` PROVIDED the
message does not also contain `401` or `UNAUTHENTICATED` (which `parseError`
tests first); and `parseError` never yields HTTP 429 for any message. -/
theorem C6_quota_maps_to_400 (message : String)
    (hquota : containsSubstring message "429" = true ∨
      containsSubstring message "RESOURCE_EXHAUSTED" = true ∨
      containsSubstring message "QUOTA_EXHAUSTED" = true)
    (h401 : containsSubstring message "401" = false)
    (hunauth : containsSubstring message "UNAUTHENTICATED" = false) :
    nonStreamingErrorResponse message = (400, "invalid_request_error") ∧
    ∀ msg : String, (parseError msg).statusCode ≠ 429 := by
  constructor
  · have hcond : (containsSubstring message "429" ||
        containsSubstring message "RESOURCE_EXHAUSTED" ||
        containsSubstring message "QUOTA_EXHAUSTED") = true := by
      rcases hquota with h | h | h <;> simp [h]
    unfold nonStreamingErrorResponse parseError
    rw [h401, hunauth]
    simp [hcond]
  · intro msg
    unfold parseError
    split_ifs <;> decide

/-- Witness for C6 (amended): a plain `429` error is answered 400. -/
theorem C6_quota_maps_to_400_witness :
    nonStreamingErrorResponse "Rate limited: 429" = (400, "invalid_request_error") :=
  (C6_quota_maps_to_400 "Rate limited: 429" (Or.inl (by rfl)) (by rfl) (by rfl)).1

/-! ## C7 — minimum wait across the pool and the 120 s budget -/

/-- `foldl min` is bounded by its initial value. -/
theorem foldl_min_le_init (ws : List Nat) : ∀ w : Nat, ws.foldl min w ≤ w := by
  induction ws with
  | nil => intro w; simp
  | cons x xs ih =>
    intro w
    simp only [List.foldl_cons]
    exact le_trans (ih (min w x)) (min_le_left w x)

/-- `foldl min` is bounded by every list element. -/
theorem foldl_min_le_mem (ws : List Nat) : ∀ (w x : Nat), x ∈ ws → ws.foldl min w ≤ x := by
  induction ws with
  | nil => intro w x hx; cases hx
  | cons y ys ih =>
    intro w x hx
    simp only [List.foldl_cons]
    rcases List.mem_cons.mp hx with rfl | hmem
    · exact le_trans (foldl_min_le_init ys (min w x)) (min_le_right w x)
    · exact ih (min w y) x hmem

/-- `foldl min` is the initial value or one of the list elements. -/
theorem foldl_min_mem (ws : List Nat) :
    ∀ w : Nat, ws.foldl min w = w ∨ ws.foldl min w ∈ ws := by
  induction ws with
  | nil => intro w; left; rfl
  | cons y ys ih =>
    intro w
    simp only [List.foldl_cons]
    rcases ih (min w y) with h | h
    · rcases Nat.le_total w y with hwy | hyw
      · left
        rw [h, min_eq_left hwy]
      · right
        rw [h, min_eq_right hyw]
        exact List.mem_cons_self y ys
    · right
      exact List.mem_cons_of_mem y h

/-- C7: when every account is rate-limited for the model, the branch computes
the minimum wait across all accounts (it bounds every account's wait and is
attained by one of them); beyond `MAX_WAIT_BEFORE_ERROR_MS = 120000` it throws
`RESOURCE_EXHAUSTED` immediately without sleeping, otherwise it sleeps exactly
that minimum, clears expired limits and re-picks — and after that sleep the
attaining account's limit has indeed expired. -/
theorem C7_all_rate_limited (pool : List Account) (model : String) (now : Nat)
    (durationText isoResetTime : String)
    (hne : pool ≠ [])
    (hall : isAllRateLimited pool model now = true) :
    (∀ a ∈ pool, getMinWaitTimeMs pool model now ≤ waitTimeFor a model now) ∧
    (∃ a ∈ pool, waitTimeFor a model now = getMinWaitTimeMs pool model now) ∧
    (getMinWaitTimeMs pool model now > MAX_WAIT_BEFORE_ERROR_MS →
      allRateLimitedBranch pool model now durationText isoResetTime =
        LimitedDecision.throwExhausted
          (resourceExhaustedMessage model durationText isoResetTime)) ∧
    (getMinWaitTimeMs pool model now ≤ MAX_WAIT_BEFORE_ERROR_MS →
      allRateLimitedBranch pool model now durationText isoResetTime =
        LimitedDecision.sleepClearRepick (getMinWaitTimeMs pool model now)) ∧
    (∃ a ∈ pool, isLimitedNow a model (now + getMinWaitTimeMs pool model now) = false) := by
  cases pool with
  | nil => exact absurd rfl hne
  | cons a0 rest =>
    have hmap : (a0 :: rest).map (fun a => waitTimeFor a model now) =
        waitTimeFor a0 model now :: rest.map (fun a => waitTimeFor a model now) := rfl
    have hmin : getMinWaitTimeMs (a0 :: rest) model now =
        (rest.map (fun a => waitTimeFor a model now)).foldl min (waitTimeFor a0 model now) := by
      unfold getMinWaitTimeMs
      rw [hmap]
    refine ⟨?_, ?_, ?_, ?_, ?_⟩
    · intro a ha
      rcases List.mem_cons.mp ha with rfl | hmem
      · rw [hmin]
        exact foldl_min_le_init _ _
      · rw [hmin]
        exact foldl_min_le_mem _ _ _ (List.mem_map_of_mem _ hmem)
    · rcases foldl_min_mem (rest.map (fun a => waitTimeFor a model now))
        (waitTimeFor a0 model now) with h | h
      · exact ⟨a0, List.mem_cons_self a0 rest, by rw [hmin, h]⟩
      · rcases List.mem_map.mp h with ⟨a, hmem, hwa⟩
        exact ⟨a, List.mem_cons_of_mem a0 hmem, by rw [hmin, hwa]⟩
    · intro hgt
      unfold allRateLimitedBranch
      simp [hgt]
    · intro hle
      unfold allRateLimitedBranch
      rw [if_neg (by omega)]
    · -- the attaining account's limit expires exactly at now + minWait
      have hex : ∃ a ∈ (a0 :: rest), waitTimeFor a model now =
          getMinWaitTimeMs (a0 :: rest) model now := by
        rcases foldl_min_mem (rest.map (fun a => waitTimeFor a model now))
          (waitTimeFor a0 model now) with h | h
        · exact ⟨a0, List.mem_cons_self a0 rest, by rw [hmin, h]⟩
        · rcases List.mem_map.mp h with ⟨a, hmem, hwa⟩
          exact ⟨a, List.mem_cons_of_mem a0 hmem, by rw [hmin, hwa]⟩
      rcases hex with ⟨a, hmem, hwa⟩
      refine ⟨a, hmem, ?_⟩
      have hlim : isLimitedNow a model now = true := by
        have h := (List.all_eq_true.mp hall) a hmem
        simpa using h
      cases hrl : rateLimitFor a model with
      | none =>
        unfold isLimitedNow at hlim
        rw [hrl] at hlim
        exact absurd hlim (by simp)
      | some entry =>
        have hwa' : entry.resetEpochMs - now = getMinWaitTimeMs (a0 :: rest) model now := by
          unfold waitTimeFor at hwa
          rw [hrl] at hwa
          exact hwa
        have hnow : now < entry.resetEpochMs := by
          unfold isLimitedNow at hlim
          rw [hrl] at hlim
          have hlim' : (entry.rateLimited && decide (now < entry.resetEpochMs)) = true := hlim
          simp only [Bool.and_eq_true, decide_eq_true_eq] at hlim'
          exact hlim'.2
        unfold isLimitedNow
        rw [hrl]
        show (entry.rateLimited &&
          decide (now + getMinWaitTimeMs (a0 :: rest) model now < entry.resetEpochMs)) = false
        have hnl : ¬ (now + getMinWaitTimeMs (a0 :: rest) model now < entry.resetEpochMs) := by
          omega
        simp [hnl]

end Proxy

namespace Proxy

/-- Witness for C7: a one-account pool rate-limited for 1000 ms sleeps for
exactly the minimum wait. -/
theorem C7_all_rate_limited_witness :
    allRateLimitedBranch
      [{ email := "a@example.com", enabled := true, isInvalid := false,
         modelRateLimits := [("claude-x", { rateLimited := true, resetEpochMs := 1000 })] }]
      "claude-x" 0 "1s" "2026-01-01T00:00:01.000Z" =
    LimitedDecision.sleepClearRepick
      (getMinWaitTimeMs
        [{ email := "a@example.com", enabled := true, isInvalid := false,
           modelRateLimits := [("claude-x", { rateLimited := true, resetEpochMs := 1000 })] }]
        "claude-x" 0) :=
  (C7_all_rate_limited _ "claude-x" 0 "1s" "2026-01-01T00:00:01.000Z"
    (List.cons_ne_nil _ _) (by rfl)).2.2.2.1 (by decide)

/-! ## Validation-result helper lemmas (shared by C1, C4, C10, C2) -/

/-- `collectErrors = []` forces every section to be empty. -/
theorem collectErrors_eq_nil (body : JVal) (h : collectErrors body = []) :
    messagesErrors body = [] ∧ modelErrors body = [] ∧ maxTokensErrors body = [] ∧
    temperatureErrors body = [] ∧ topPErrors body = [] ∧ topKErrors body = [] ∧
    streamErrors body = [] ∧ systemErrors body = [] ∧ toolsErrors body = [] ∧
    thinkingErrors body = [] := by
  unfold collectErrors at h
  simpa [List.append_eq_nil] using h

/-- Any non-empty section makes `validateMessages` reject with a non-empty
error list. -/
theorem rejects_of_collect (body : JVal) (h : collectErrors body ≠ []) :
    ∃ errs, validateMessages body = VResult.invalid errs ∧ errs ≠ [] := by
  unfold validateMessages
  by_cases hpp : hasPrototypePollution body 0 = true
  · refine ⟨["Prototype pollution attempt detected"], ?_, by simp⟩
    simp [hpp]
  · have he : (collectErrors body).isEmpty = false := by
      cases hc : collectErrors body with
      | nil => exact absurd hc h
      | cons e rest => rfl
    refine ⟨collectErrors body, ?_, h⟩
    rw [if_neg hpp, he]
    simp

/-- A polluted body is rejected with exactly the pollution message. -/
theorem validateMessages_pollution (body : JVal)
    (hpoll : hasPrototypePollution body 0 = true) :
    validateMessages body = VResult.invalid ["Prototype pollution attempt detected"] := by
  unfold validateMessages
  simp [hpoll]

/-- `routeValidated` on an invalid body answers 400 with the first error. -/
theorem routeValidated_badRequest (body : JVal) (errs : List String)
    (h : validateMessages body = VResult.invalid errs) :
    routeValidated body = RouteOutcome.badRequest (errs.headD "") := by
  unfold routeValidated
  rw [h]

/-- `routeValidated` never routes to the local gateway. -/
theorem routeValidated_ne_gateway (body : JVal) :
    routeValidated body ≠ RouteOutcome.localGateway := by
  unfold routeValidated
  cases h : validateMessages body with
  | invalid errs => simp
  | ok data => simp

end Proxy

namespace Proxy

/-! ## C1 — prototype pollution vs the `local-`/`gemma-` bypass -/

/-- Counterexample to claim C1: a body with nested `__proto__` whose model is
`local-gemma` is routed to the local gateway WITHOUT validation — the
pollution check never runs and the request is forwarded upstream. -/
theorem C1_counterexample :
    hasPrototypePollution pollutedLocalBody 0 = true ∧
    containsDangerousKey pollutedLocalBody = true ∧
    routeMessages pollutedLocalBody = RouteOutcome.localGateway := by
  refine ⟨rfl, ?_, rfl⟩
  simp [pollutedLocalBody, containsDangerousKey, containsDangerousKeyList,
    containsDangerousKeyFields, DANGEROUS_KEYS, userMsg]

/-- C1 (amended): a body containing prototype-pollution keys is rejected with
400 "Prototype pollution attempt detected" before any upstream request on the
VALIDATED route — when `model` is absent or does not (case-sensitively) start
with `local-`/`gemma-` — but a body whose model starts with `local-` or
`gemma-` bypasses validation entirely and is handed to the local gateway. -/
theorem C1_pollution_bypass (body : JVal)
    (hpoll : hasPrototypePollution body 0 = true) :
    (jsGet body "model" = Option.none →
      routeMessages body = RouteOutcome.badRequest "Prototype pollution attempt detected") ∧
    (∀ s, jsGet body "model" = Option.some (JVal.str s) →
      (strStartsWith s "local-" || strStartsWith s "gemma-") = false →
      routeMessages body = RouteOutcome.badRequest "Prototype pollution attempt detected") ∧
    (∀ s, jsGet body "model" = Option.some (JVal.str s) →
      (strStartsWith s "local-" || strStartsWith s "gemma-") = true →
      routeMessages body = RouteOutcome.localGateway) := by
  have hval : routeValidated body =
      RouteOutcome.badRequest "Prototype pollution attempt detected" := by
    have h := routeValidated_badRequest body _ (validateMessages_pollution body hpoll)
    simpa using h
  refine ⟨?_, ?_, ?_⟩
  · intro hm
    unfold routeMessages
    rw [hm]
    exact hval
  · intro s hm hpre
    unfold routeMessages
    rw [hm]
    show (if (s != "" && (strStartsWith s "local-" || strStartsWith s "gemma-")) = true
      then RouteOutcome.localGateway else routeValidated body) =
      RouteOutcome.badRequest "Prototype pollution attempt detected"
    rw [hpre]
    simpa using hval
  · intro s hm hpre
    unfold routeMessages
    rw [hm]
    show (if (s != "" && (strStartsWith s "local-" || strStartsWith s "gemma-")) = true
      then RouteOutcome.localGateway else routeValidated body) = RouteOutcome.localGateway
    have hs : (s != "") = true := by
      by_cases h0 : s = ""
      · subst h0
        exact absurd hpre (by decide)
      · simpa using h0
    rw [hpre, hs]
    rfl

/-- Witness for C1 (amended): the polluted Cloud-Code body is rejected with
the pollution message. -/
theorem C1_pollution_bypass_witness :
    routeMessages pollutedCloudBody =
      RouteOutcome.badRequest "Prototype pollution attempt detected" :=
  (C1_pollution_bypass pollutedCloudBody (by rfl)).2.1 "claude-3" (by rfl) (by rfl)

end Proxy

namespace Proxy

/-! ## C10 — missing model passes validation and defaults -/

/-- `find?` is unchanged by a `setFieldList` on a different key. -/
theorem find_setFieldList_ne (fs : List (String × JVal)) (k k' : String) (nv : JVal)
    (h : k' ≠ k) :
    (setFieldList fs k nv).find? (fun f => f.1 == k') = fs.find? (fun f => f.1 == k') := by
  induction fs with
  | nil =>
    have hk : ((k, nv).1 == k') = false := by
      simp only [beq_eq_false_iff_ne]
      exact fun hkk => h hkk.symm
    simp [setFieldList, List.find?, hk]
  | cons f fs ih =>
    rcases f with ⟨k0, v0⟩
    by_cases hk0 : (k0 == k) = true
    · have hk0k : k0 = k := by simpa using hk0
      have hne : ((k0, nv).1 == k') = false := by
        simp only [beq_eq_false_iff_ne]
        intro hkk
        exact h (hkk ▸ hk0k ▸ rfl)
      have hne2 : ((k0, v0).1 == k') = false := by
        simpa using hne
      simp [setFieldList, hk0, List.find?, hne, hne2]
    · have hk0' : (k0 == k) = false := by simpa using hk0
      by_cases hkk' : (k0 == k') = true
      · simp [setFieldList, hk0', List.find?, hkk']
      · have hkk'2 : (k0 == k') = false := by simpa using hkk'
        simp [setFieldList, hk0', List.find?, hkk'2, ih]

/-- `jsGet` at a different key is unchanged by `setField`. -/
theorem jsGet_setField_ne (v : JVal) (k k' : String) (nv : JVal) (h : k' ≠ k) :
    jsGet (setField v k nv) k' = jsGet v k' := by
  have hk : ((k, nv).1 == k') = false := by
    simp only [beq_eq_false_iff_ne]
    exact fun hkk => h hkk.symm
  have hsing : (([(k, nv)] : List (String × JVal)).find? (fun f => f.1 == k')).map
      (fun f => f.2) = Option.none := by
    rw [List.find?_cons_of_neg _ (by simp [hk])]
    rfl
  cases v with
  | obj fields =>
    show ((setFieldList fields k nv).find? (fun f => f.1 == k')).map (fun f => f.2) =
      (fields.find? (fun f => f.1 == k')).map (fun f => f.2)
    rw [find_setFieldList_ne fields k k' nv h]
  | null => exact hsing
  | bool b => exact hsing
  | num q => exact hsing
  | str s => exact hsing
  | arr items => exact hsing

/-- `applyDefaults` does not touch the `model` field. -/
theorem jsGet_applyDefaults_model (body : JVal) :
    jsGet (applyDefaults body) "model" = jsGet body "model" := by
  unfold applyDefaults
  rw [jsGet_setField_ne _ _ _ _ (by decide), jsGet_setField_ne _ _ _ _ (by decide)]

/-- C10: a body that omits `model` entirely contributes no model error (the
whitelist check only runs when the field is present), and when such a body
validates, the handler dispatches with the default model
`claude-3-5-sonnet-20241022`. -/
theorem C10_missing_model (body : JVal) (hm : jsGet body "model" = Option.none) :
    modelErrors body = [] ∧
    (∀ data, validateMessages body = VResult.ok data →
      routeMessages body = RouteOutcome.dispatch DEFAULT_MODEL data) := by
  constructor
  · unfold modelErrors
    rw [hm]
  · intro data hv
    have hdata : applyDefaults body = data := by
      unfold validateMessages at hv
      split at hv
      · exact absurd hv (by simp)
      · split at hv
        · rw [VResult.ok.injEq] at hv
          exact hv
        · exact absurd hv (by simp)
    have hdm : jsGet data "model" = Option.none := by
      rw [← hdata, jsGet_applyDefaults_model, hm]
    unfold routeMessages
    rw [hm]
    show routeValidated body = RouteOutcome.dispatch DEFAULT_MODEL data
    unfold routeValidated
    rw [hv]
    show RouteOutcome.dispatch
        (match jsGet data "model" with
         | Option.some (JVal.str s) => if (s != "") = true then s else DEFAULT_MODEL
         | _ => DEFAULT_MODEL) data =
      RouteOutcome.dispatch DEFAULT_MODEL data
    rw [hdm]

/-- Witness for C10: the concrete model-less body dispatches with the default
model. -/
theorem C10_missing_model_witness :
    routeMessages noModelBody =
      RouteOutcome.dispatch DEFAULT_MODEL (applyDefaults noModelBody) :=
  (C10_missing_model noModelBody (by rfl)).2 (applyDefaults noModelBody) (by rfl)

end Proxy

namespace Proxy

/-! ## C9 — Anthropic→OpenAI transcoding shapes -/

/-- C9: the transcoder (1) emits a truthy `system` field as a leading
system-role message carrying the raw value; (2) converts an assistant
message's blocks into a single assistant entry whose `content` is the
concatenated text (null when empty) and whose `tool_calls` collect every
`tool_use` block as `{id, type:'function', function:{name,
arguments: JSON.stringify(input)}}`; (3) renders a message containing
tool_results as an optional leading text message followed by exactly one
`{role:'tool', tool_call_id, content}` entry per `tool_result`, stringifying
non-string content; and (4) every `tool_result` block of a user message
yields such a tool message in the output. -/
theorem C9_toOpenAI_shapes :
    (∀ req : ARequest, truthy req.system = true →
      (toOpenAI req).messages.head? =
        Option.some (OMessage.sys (req.system.getD JVal.null))) ∧
    (∀ (bs : List ABlock) (tid tname : String) (tinput : Option JVal),
      hasToolResultBlock bs = false →
      ABlock.tool_use tid tname tinput ∈ bs →
      convertMessage { role := "assistant", content := AContent.blocks bs } =
        [OMessage.assistant
          (if (assistantTexts bs != "") = true then Option.some (assistantTexts bs)
           else Option.none)
          (Option.some (List.filterMap toolCallOfUse bs))] ∧
      ({ id := tid, name := tname, arguments := tinput.map jsonStringify } : OToolCall) ∈
        List.filterMap toolCallOfUse bs) ∧
    (∀ (role : String) (bs : List ABlock), hasToolResultBlock bs = true →
      convertMessage { role := role, content := AContent.blocks bs } =
        (if (toolResultTexts bs != "") = true
         then [OMessage.plain role (toolResultTexts bs)] else []) ++ toolResultMsgs bs) ∧
    (∀ (bs : List ABlock) (tuId : String) (c : Option JVal),
      ABlock.tool_result tuId c ∈ bs →
      OMessage.toolResultMsg tuId (stringifyTRContent c) ∈
        convertMessage { role := "user", content := AContent.blocks bs }) := by
  refine ⟨?_, ?_, ?_, ?_⟩
  · intro req h
    unfold toOpenAI
    simp [h]
  · intro bs tid tname tinput hntr hmem
    have hmemtc : ({ id := tid, name := tname, arguments := tinput.map jsonStringify } :
        OToolCall) ∈ List.filterMap toolCallOfUse bs :=
      List.mem_filterMap.mpr ⟨ABlock.tool_use tid tname tinput, hmem, rfl⟩
    refine ⟨?_, hmemtc⟩
    have hlen : 0 < (List.filterMap toolCallOfUse bs).length :=
      List.length_pos.mpr (List.ne_nil_of_mem hmemtc)
    unfold convertMessage
    show (if hasToolResultBlock bs = true then
        (if (toolResultTexts bs != "") = true
         then [OMessage.plain "assistant" (toolResultTexts bs)] else []) ++ toolResultMsgs bs
      else if ("assistant" == "assistant") = true then
        [OMessage.assistant
          (if (assistantTexts bs != "") = true then Option.some (assistantTexts bs)
           else Option.none)
          (if (List.filterMap toolCallOfUse bs).length > 0 then
            Option.some (List.filterMap toolCallOfUse bs) else Option.none)]
      else [OMessage.plain "assistant" (String.join (bs.map userBranchText))]) = _
    rw [hntr]
    simp [hlen]
  · intro role bs htr
    unfold convertMessage
    show (if hasToolResultBlock bs = true then
        (if (toolResultTexts bs != "") = true
         then [OMessage.plain role (toolResultTexts bs)] else []) ++ toolResultMsgs bs
      else if (role == "assistant") = true then
        [OMessage.assistant
          (if (assistantTexts bs != "") = true then Option.some (assistantTexts bs)
           else Option.none)
          (if (List.filterMap toolCallOfUse bs).length > 0 then
            Option.some (List.filterMap toolCallOfUse bs) else Option.none)]
      else [OMessage.plain role (String.join (bs.map userBranchText))]) = _
    rw [htr]
    simp
  · intro bs tuId c hmem
    have htr : hasToolResultBlock bs = true := by
      unfold hasToolResultBlock
      exact List.any_eq_true.mpr ⟨ABlock.tool_result tuId c, hmem, rfl⟩
    have hmsg : OMessage.toolResultMsg tuId (stringifyTRContent c) ∈ toolResultMsgs bs := by
      unfold toolResultMsgs
      exact List.mem_filterMap.mpr ⟨ABlock.tool_result tuId c, hmem, rfl⟩
    unfold convertMessage
    show OMessage.toolResultMsg tuId (stringifyTRContent c) ∈
      (if hasToolResultBlock bs = true then
        (if (toolResultTexts bs != "") = true
         then [OMessage.plain "user" (toolResultTexts bs)] else []) ++ toolResultMsgs bs
      else if ("user" == "assistant") = true then
        [OMessage.assistant
          (if (assistantTexts bs != "") = true then Option.some (assistantTexts bs)
           else Option.none)
          (if (List.filterMap toolCallOfUse bs).length > 0 then
            Option.some (List.filterMap toolCallOfUse bs) else Option.none)]
      else [OMessage.plain "user" (String.join (bs.map userBranchText))])
    rw [htr]
    simp only [if_pos rfl]
    exact List.mem_append_right _ hmsg

/-- A concrete request for the C9 witness. -/
def c9Req : ARequest :=
  { system := Option.some (JVal.str "be brief")
  , messages := [{ role := "user", content := AContent.str "hi" }]
  , model := Option.some (JVal.str "local-gemma")
  , stream := Option.none
  , temperature := Option.none
  , max_tokens := Option.none
  , stop_sequences := Option.none
  , tools := Option.none
  , tool_choice := Option.none }

/-- Witness for C9: the concrete request's output starts with the system
message, and a tool-result user message yields its tool entry. -/
theorem C9_toOpenAI_shapes_witness :
    (toOpenAI c9Req).messages.head? =
      Option.some (OMessage.sys (JVal.str "be brief")) ∧
    OMessage.toolResultMsg "tu_1" (Option.some "42") ∈
      convertMessage { role := "user", content :=
        (AContent.blocks [ABlock.tool_result "tu_1" (Option.some (JVal.str "42"))]) } :=
  ⟨C9_toOpenAI_shapes.1 c9Req (by rfl),
   C9_toOpenAI_shapes.2.2.2 [ABlock.tool_result "tu_1" (Option.some (JVal.str "42"))]
     "tu_1" (Option.some (JVal.str "42")) (List.mem_singleton.mpr rfl)⟩

end Proxy

namespace Proxy

/-! ## C2 — the validation contract

Claim-side predicates, written from the spec's words, to be compared with
the behaviour of the source-derived `validateMessages`. -/

/-- The body is rejected: `validateMessages` answers invalid with at least
one human-readable error (the route surfaces `errors[0]`). -/
def RejectsBody (body : JVal) : Prop :=
  ∃ errs, validateMessages body = VResult.invalid errs ∧ errs ≠ []

/-- The field value is not an integer inside `[lo, hi]`. -/
def BadIntField (v : JVal) (lo hi : ℚ) : Prop :=
  ∀ q : ℚ, v = JVal.num q → ¬(q.den = 1 ∧ lo ≤ q ∧ q ≤ hi)

/-- The field value is not a number inside `[lo, hi]`. -/
def BadNumField (v : JVal) (lo hi : ℚ) : Prop :=
  ∀ q : ℚ, v = JVal.num q → ¬(lo ≤ q ∧ q ≤ hi)

/-- A text block whose text exceeds 2 MB. -/
def ViolatingTextBlock (b : JVal) : Prop :=
  jsGet b "type" = Option.some (JVal.str "text") ∧
  ∃ t, jsGet b "text" = Option.some (JVal.str t) ∧ t.length > 2000000

/-- A base64 image block whose data exceeds 10 MB or whose media type is
outside {jpeg, png, gif, webp}. -/
def ViolatingImageBlock (b : JVal) : Prop :=
  jsGet b "type" = Option.some (JVal.str "image") ∧
  ∃ source, jsGet b "source" = Option.some source ∧
    jsGet source "type" = Option.some (JVal.str "base64") ∧
    ((∃ d, jsGet source "data" = Option.some (JVal.str d) ∧ d.length > 10000000) ∨
     (∃ mt, jsGet source "media_type" = Option.some (JVal.str mt) ∧ mt ≠ "" ∧
        mt ≠ "image/jpeg" ∧ mt ≠ "image/png" ∧ mt ≠ "image/gif" ∧ mt ≠ "image/webp"))

/-- A tool_use block whose name exceeds 256 characters or contains a
character outside `[A-Za-z0-9_-]` (or is empty). -/
def ViolatingToolUseBlock (b : JVal) : Prop :=
  jsGet b "type" = Option.some (JVal.str "tool_use") ∧
  ∃ n, jsGet b "name" = Option.some (JVal.str n) ∧
    (n.length > 256 ∨ n = "" ∨ ∃ c ∈ n.toList, toolNameCharOk c = false)

/-- One schema-violating message block in the claim's sense. -/
def ViolatingBlock (b : JVal) : Prop :=
  ViolatingTextBlock b ∨ ViolatingImageBlock b ∨ ViolatingToolUseBlock b

/-- Message content violating the claim's schema limits: an oversized string
or an array containing a violating block. -/
def ViolatingContent (c : JVal) : Prop :=
  (∃ t, c = JVal.str t ∧ t.length > 2000000) ∨
  (∃ bs, c = JVal.arr bs ∧ ∃ b ∈ bs, ViolatingBlock b)


/-! ### Pollution and depth imply rejection -/

/-- `containsDangerousKeyList` as an existential. -/
theorem containsDangerousKeyList_iff (items : List JVal) :
    containsDangerousKeyList items = true ↔
      ∃ x ∈ items, containsDangerousKey x = true := by
  induction items with
  | nil => simp [containsDangerousKeyList]
  | cons x xs ih =>
    rw [containsDangerousKeyList]
    simp only [Bool.or_eq_true, ih, List.mem_cons]
    constructor
    · rintro (h | ⟨y, hy, hk⟩)
      · exact ⟨x, Or.inl rfl, h⟩
      · exact ⟨y, Or.inr hy, hk⟩
    · rintro ⟨y, (rfl | hy), hk⟩
      · exact Or.inl hk
      · exact Or.inr ⟨y, hy, hk⟩

/-- `containsDangerousKeyFields` as an existential. -/
theorem containsDangerousKeyFields_iff (fs : List (String × JVal)) :
    containsDangerousKeyFields fs = true ↔
      ∃ kv ∈ fs, (DANGEROUS_KEYS.contains kv.1 = true ∨
        containsDangerousKey kv.2 = true) := by
  induction fs with
  | nil => simp [containsDangerousKeyFields]
  | cons kv fs ih =>
    rcases kv with ⟨k, v⟩
    rw [containsDangerousKeyFields]
    simp only [Bool.or_eq_true, ih, List.mem_cons]
    constructor
    · rintro ((h | h) | ⟨p, hp, hc⟩)
      · exact ⟨(k, v), Or.inl rfl, Or.inl h⟩
      · exact ⟨(k, v), Or.inl rfl, Or.inr h⟩
      · exact ⟨p, Or.inr hp, hc⟩
    · rintro ⟨p, (rfl | hp), hc⟩
      · rcases hc with h | h
        · exact Or.inl (Or.inl h)
        · exact Or.inl (Or.inr h)
      · exact Or.inr ⟨p, hp, hc⟩

/-- A dangerous key anywhere makes `hasPPFuel` answer true, for any fuel. -/
theorem hasPPFuel_of_key : ∀ (f : Nat) (v : JVal) (d : Nat),
    containsDangerousKey v = true → hasPPFuel f v d = true := by
  intro f
  induction f with
  | zero => intro v d _; rfl
  | succ n ih =>
    intro v d h
    cases v with
    | arr items =>
      show (if d > 50 then true
        else items.any (fun x => hasPPFuel n x (d + 1))) = true
      by_cases hd : d > 50
      · rw [if_pos hd]
      · rw [if_neg hd]
        rw [containsDangerousKey] at h
        rcases (containsDangerousKeyList_iff items).mp h with ⟨x, hx, hxk⟩
        exact List.any_eq_true.mpr ⟨x, hx, ih x (d + 1) hxk⟩
    | obj fields =>
      show (if d > 50 then true
        else fields.any (fun kv =>
          DANGEROUS_KEYS.contains kv.1 || hasPPFuel n kv.2 (d + 1))) = true
      by_cases hd : d > 50
      · rw [if_pos hd]
      · rw [if_neg hd]
        rw [containsDangerousKey] at h
        rcases (containsDangerousKeyFields_iff fields).mp h with ⟨kv, hkv, hcase⟩
        refine List.any_eq_true.mpr ⟨kv, hkv, ?_⟩
        show (DANGEROUS_KEYS.contains kv.1 || hasPPFuel n kv.2 (d + 1)) = true
        rcases hcase with hk | hv
        · rw [hk]
          rfl
        · rw [ih kv.2 (d + 1) hv]
          simp
    | null => rw [containsDangerousKey] at h; exact absurd h (by simp)
    | bool b => rw [containsDangerousKey] at h; exact absurd h (by simp)
    | num q => rw [containsDangerousKey] at h; exact absurd h (by simp)
    | str s => rw [containsDangerousKey] at h; exact absurd h (by simp)

/-- A list deeper than the fuel contains an element absorbing one level. -/
theorem maxNodeDepthList_succ (items : List JVal) :
    ∀ f : Nat, f + 1 ≤ maxNodeDepthList items → ∃ x ∈ items, f ≤ maxNodeDepth x := by
  induction items with
  | nil => intro f h; rw [maxNodeDepthList] at h; omega
  | cons x xs ih =>
    intro f h
    rw [maxNodeDepthList] at h
    rcases le_max_iff.mp h with h1 | h2
    · refine ⟨x, List.mem_cons_self x xs, ?_⟩
      omega
    · rcases ih f h2 with ⟨y, hy, hd⟩
      exact ⟨y, List.mem_cons_of_mem x hy, hd⟩

/-- Field version of `maxNodeDepthList_succ`. -/
theorem maxNodeDepthFields_succ (fs : List (String × JVal)) :
    ∀ f : Nat, f + 1 ≤ maxNodeDepthFields fs → ∃ kv ∈ fs, f ≤ maxNodeDepth kv.2 := by
  induction fs with
  | nil => intro f h; rw [maxNodeDepthFields] at h; omega
  | cons kv fs ih =>
    intro f h
    rcases kv with ⟨k, v⟩
    rw [maxNodeDepthFields] at h
    rcases le_max_iff.mp h with h1 | h2
    · refine ⟨(k, v), List.mem_cons_self _ fs, ?_⟩
      show f ≤ maxNodeDepth v
      omega
    · rcases ih f h2 with ⟨p, hp, hd⟩
      exact ⟨p, List.mem_cons_of_mem _ hp, hd⟩

/-- Exhausting the fuel before the tree's depth makes `hasPPFuel` true. -/
theorem hasPPFuel_of_depth : ∀ (f : Nat) (v : JVal) (d : Nat),
    f ≤ maxNodeDepth v → hasPPFuel f v d = true := by
  intro f
  induction f with
  | zero => intro v d _; rfl
  | succ n ih =>
    intro v d h
    cases v with
    | arr items =>
      show (if d > 50 then true
        else items.any (fun x => hasPPFuel n x (d + 1))) = true
      by_cases hd : d > 50
      · rw [if_pos hd]
      · rw [if_neg hd]
        rw [maxNodeDepth] at h
        rcases maxNodeDepthList_succ items n h with ⟨x, hx, hxd⟩
        exact List.any_eq_true.mpr ⟨x, hx, ih x (d + 1) hxd⟩
    | obj fields =>
      show (if d > 50 then true
        else fields.any (fun kv =>
          DANGEROUS_KEYS.contains kv.1 || hasPPFuel n kv.2 (d + 1))) = true
      by_cases hd : d > 50
      · rw [if_pos hd]
      · rw [if_neg hd]
        rw [maxNodeDepth] at h
        rcases maxNodeDepthFields_succ fields n h with ⟨kv, hkv, hkd⟩
        refine List.any_eq_true.mpr ⟨kv, hkv, ?_⟩
        show (DANGEROUS_KEYS.contains kv.1 || hasPPFuel n kv.2 (d + 1)) = true
        rw [ih kv.2 (d + 1) hkd]
        simp
    | null => rw [maxNodeDepth] at h; omega
    | bool b => rw [maxNodeDepth] at h; omega
    | num q => rw [maxNodeDepth] at h; omega
    | str s => rw [maxNodeDepth] at h; omega

end Proxy

namespace Proxy

/-! ### Violating blocks make the block validators fail -/

/-- Dispatch to `validateTextBlock` for a `text`-typed object block. -/
theorem validateContentBlock_text (fs : List (String × JVal))
    (hty : jsGet (JVal.obj fs) "type" = Option.some (JVal.str "text")) :
    validateContentBlock (JVal.obj fs) = validateTextBlock (JVal.obj fs) := by
  unfold validateContentBlock
  rw [hty]
  rfl

/-- Dispatch to `validateImageBlock` for an `image`-typed object block. -/
theorem validateContentBlock_image (fs : List (String × JVal))
    (hty : jsGet (JVal.obj fs) "type" = Option.some (JVal.str "image")) :
    validateContentBlock (JVal.obj fs) = validateImageBlock (JVal.obj fs) := by
  unfold validateContentBlock
  rw [hty]
  rfl

/-- Dispatch to `validateToolUseBlock` for a `tool_use`-typed object block. -/
theorem validateContentBlock_tool_use (fs : List (String × JVal))
    (hty : jsGet (JVal.obj fs) "type" = Option.some (JVal.str "tool_use")) :
    validateContentBlock (JVal.obj fs) = validateToolUseBlock (JVal.obj fs) := by
  unfold validateContentBlock
  rw [hty]
  rfl

/-- An oversized text block fails. -/
theorem validateTextBlock_fails (fs : List (String × JVal)) (t : String)
    (hty : jsGet (JVal.obj fs) "type" = Option.some (JVal.str "text"))
    (htext : jsGet (JVal.obj fs) "text" = Option.some (JVal.str t))
    (hlen : t.length > 2000000) :
    validateTextBlock (JVal.obj fs) =
      VCheck.fail ("Text exceeds " ++ toString MAX_MESSAGE_LENGTH ++ " character limit") := by
  unfold validateTextBlock
  rw [hty]
  show (match jsGet (JVal.obj fs) "text" with
    | Option.some (JVal.str s) =>
        if s.length > MAX_MESSAGE_LENGTH then
          VCheck.fail ("Text exceeds " ++ toString MAX_MESSAGE_LENGTH ++ " character limit")
        else VCheck.ok
    | _ => VCheck.fail "Text must be a string") = _
  rw [htext]
  show (if t.length > MAX_MESSAGE_LENGTH then
      VCheck.fail ("Text exceeds " ++ toString MAX_MESSAGE_LENGTH ++ " character limit")
    else VCheck.ok) = _
  have hlen2 : t.length > MAX_MESSAGE_LENGTH := hlen
  rw [if_pos hlen2]

/-- A violating base64 image source fails. -/
theorem validateImageSource_fails (source : JVal)
    (hst : jsGet source "type" = Option.some (JVal.str "base64"))
    (hbad : (∃ d, jsGet source "data" = Option.some (JVal.str d) ∧ d.length > 10000000) ∨
      (∃ mt, jsGet source "media_type" = Option.some (JVal.str mt) ∧ mt ≠ "" ∧
        mt ≠ "image/jpeg" ∧ mt ≠ "image/png" ∧ mt ≠ "image/gif" ∧ mt ≠ "image/webp")) :
    ∃ e, validateImageSource source = VCheck.fail e := by
  have hbase : ∀ (r : VCheck),
      (match jsGet source "data" with
        | Option.some (JVal.str d) =>
            if d.length > MAX_IMAGE_SIZE then
              VCheck.fail "Image exceeds 10MB size limit"
            else
              match jsGet source "media_type" with
              | Option.none => VCheck.ok
              | Option.some mt =>
                  if truthy (Option.some mt) && !imageMediaTypeOk (jsToString mt) then
                    VCheck.fail "Invalid image media type"
                  else VCheck.ok
        | _ => VCheck.fail "Image data must be a string") = r →
      validateImageSource source = r := by
    intro r hr
    unfold validateImageSource
    rw [hst]
    exact hr
  rcases hbad with ⟨d, hd, hdlen⟩ | ⟨mt, hmt, hne, h1, h2, h3, h4⟩
  · refine ⟨"Image exceeds 10MB size limit", hbase _ ?_⟩
    rw [hd]
    show (if d.length > MAX_IMAGE_SIZE then
        VCheck.fail "Image exceeds 10MB size limit"
      else
        match jsGet source "media_type" with
        | Option.none => VCheck.ok
        | Option.some mt =>
            if truthy (Option.some mt) && !imageMediaTypeOk (jsToString mt) then
              VCheck.fail "Invalid image media type"
            else VCheck.ok) = _
    have hdlen2 : d.length > MAX_IMAGE_SIZE := hdlen
    rw [if_pos hdlen2]
  · cases hdata : jsGet source "data" with
    | none =>
      refine ⟨"Image data must be a string", hbase _ ?_⟩
      rw [hdata]
    | some v =>
      cases v with
      | str d =>
        by_cases hdl : d.length > MAX_IMAGE_SIZE
        · refine ⟨"Image exceeds 10MB size limit", hbase _ ?_⟩
          rw [hdata]
          show (if d.length > MAX_IMAGE_SIZE then
              VCheck.fail "Image exceeds 10MB size limit"
            else
              match jsGet source "media_type" with
              | Option.none => VCheck.ok
              | Option.some mt =>
                  if truthy (Option.some mt) && !imageMediaTypeOk (jsToString mt) then
                    VCheck.fail "Invalid image media type"
                  else VCheck.ok) = _
          rw [if_pos hdl]
        · refine ⟨"Invalid image media type", hbase _ ?_⟩
          rw [hdata]
          show (if d.length > MAX_IMAGE_SIZE then
              VCheck.fail "Image exceeds 10MB size limit"
            else
              match jsGet source "media_type" with
              | Option.none => VCheck.ok
              | Option.some mt =>
                  if truthy (Option.some mt) && !imageMediaTypeOk (jsToString mt) then
                    VCheck.fail "Invalid image media type"
                  else VCheck.ok) = _
          rw [if_neg hdl, hmt]
          show (if truthy (Option.some (JVal.str mt)) &&
              !imageMediaTypeOk (jsToString (JVal.str mt)) then
              VCheck.fail "Invalid image media type"
            else VCheck.ok) = _
          have hc : (truthy (Option.some (JVal.str mt)) &&
              !imageMediaTypeOk (jsToString (JVal.str mt))) = true := by
            have ht : truthy (Option.some (JVal.str mt)) = true := by
              simp [truthy, hne]
            have hm : imageMediaTypeOk (jsToString (JVal.str mt)) = false := by
              simp [jsToString, imageMediaTypeOk, h1, h2, h3, h4]
            rw [ht, hm]
            rfl
          rw [if_pos hc]
      | null => exact ⟨"Image data must be a string", hbase _ (by rw [hdata])⟩
      | bool b => exact ⟨"Image data must be a string", hbase _ (by rw [hdata])⟩
      | num q => exact ⟨"Image data must be a string", hbase _ (by rw [hdata])⟩
      | arr items => exact ⟨"Image data must be a string", hbase _ (by rw [hdata])⟩
      | obj ofs => exact ⟨"Image data must be a string", hbase _ (by rw [hdata])⟩

/-- A violating image block fails. -/
theorem validateImageBlock_fails (fs : List (String × JVal))
    (h : ViolatingImageBlock (JVal.obj fs)) :
    ∃ e, validateImageBlock (JVal.obj fs) = VCheck.fail e := by
  rcases h with ⟨hty, source, hsrc, hst, hbad⟩
  have hsobj : typeofObject source = true := by
    cases source with
    | obj sfs => rfl
    | null => simp [jsGet] at hst
    | bool b => simp [jsGet] at hst
    | num q => simp [jsGet] at hst
    | str s => simp [jsGet] at hst
    | arr items => simp [jsGet] at hst
  rcases validateImageSource_fails source hst hbad with ⟨e, he⟩
  refine ⟨e, ?_⟩
  unfold validateImageBlock
  rw [hty, hsrc]
  have hguard : (!truthy (Option.some source) || !(match Option.some source with
      | Option.some v => typeofObject v
      | Option.none => false)) = false := by
    have ht : truthy (Option.some source) = true := by
      cases source with
      | obj sfs => rfl
      | null => simp [jsGet] at hst
      | bool b => simp [jsGet] at hst
      | num q => simp [jsGet] at hst
      | str s => simp [jsGet] at hst
      | arr items => simp [jsGet] at hst
    show (!truthy (Option.some source) || !typeofObject source) = false
    rw [ht, hsobj]
    rfl
  rw [hguard]
  show validateImageSource source = VCheck.fail e
  exact he

end Proxy

namespace Proxy

/-! ### C2 — remaining lift lemmas -/

/-- A violating tool_use block fails. -/
theorem validateToolUseBlock_fails (fs : List (String × JVal)) (n : String)
    (hty : jsGet (JVal.obj fs) "type" = Option.some (JVal.str "tool_use"))
    (hname : jsGet (JVal.obj fs) "name" = Option.some (JVal.str n))
    (hbad : n.length > 256 ∨ n = "" ∨ ∃ c ∈ n.toList, toolNameCharOk c = false) :
    ∃ e, validateToolUseBlock (JVal.obj fs) = VCheck.fail e := by
  unfold validateToolUseBlock
  rw [hty]
  cases hid : isNonEmptyString (jsGet (JVal.obj fs) "id") (Option.some 128) with
  | false =>
      exact ⟨"tool_use.id must be a non-empty string (max 128 chars)", rfl⟩
  | true =>
      rw [hname]
      show ∃ e, (if !isNonEmptyString (Option.some (JVal.str n)) (Option.some MAX_TOOL_NAME_LENGTH) then
          VCheck.fail "tool_use.name must be a non-empty string"
        else if !toolNameOk n then
          VCheck.fail "tool_use.name contains invalid characters"
        else
          match jsGet (JVal.obj fs) "input" with
          | Option.none => VCheck.ok
          | Option.some v =>
              if typeofObject v then VCheck.ok
              else VCheck.fail "tool_use.input must be an object") = VCheck.fail e
      cases hne : isNonEmptyString (Option.some (JVal.str n)) (Option.some MAX_TOOL_NAME_LENGTH) with
      | false =>
          exact ⟨"tool_use.name must be a non-empty string", rfl⟩
      | true =>
          have hok : toolNameOk n = false := by
            have hne2 : (if trimmedEmpty n then false
                else !(n.length > MAX_TOOL_NAME_LENGTH)) = true := hne
            rcases hbad with hlen | hnil | ⟨c, hc, hcbad⟩
            · exfalso
              cases htr : trimmedEmpty n with
              | true => rw [htr] at hne2; simp at hne2
              | false =>
                  rw [htr] at hne2
                  simp at hne2
                  have h256 : MAX_TOOL_NAME_LENGTH = 256 := rfl
                  omega
            · exfalso
              subst hnil
              have htr : trimmedEmpty "" = true := rfl
              rw [htr] at hne2
              simp at hne2
            · unfold toolNameOk
              cases hall : n.toList.all toolNameCharOk with
              | false => simp
              | true =>
                  exfalso
                  rw [List.all_eq_true] at hall
                  have hcc := hall c hc
                  rw [hcbad] at hcc
                  simp at hcc
          refine ⟨"tool_use.name contains invalid characters", ?_⟩
          rw [hok]
          rfl

/-- A violating block (in the claim's sense) fails `validateContentBlock`. -/
theorem validateContentBlock_fails (b : JVal) (h : ViolatingBlock b) :
    ∃ e, validateContentBlock b = VCheck.fail e := by
  have hty0 : ∃ ty, jsGet b "type" = Option.some ty := by
    rcases h with ⟨hty, _⟩ | ⟨hty, _⟩ | ⟨hty, _⟩
    · exact ⟨_, hty⟩
    · exact ⟨_, hty⟩
    · exact ⟨_, hty⟩
  have hobj : ∃ fs, b = JVal.obj fs := by
    rcases hty0 with ⟨ty, hty⟩
    cases b with
    | obj fs => exact ⟨fs, rfl⟩
    | null => simp [jsGet] at hty
    | bool x => simp [jsGet] at hty
    | num x => simp [jsGet] at hty
    | str x => simp [jsGet] at hty
    | arr x => simp [jsGet] at hty
  rcases hobj with ⟨fs, rfl⟩
  rcases h with ⟨hty, t, htext, hlen⟩ | hI | ⟨hty, n, hname, hbad⟩
  · rw [validateContentBlock_text fs hty]
    exact ⟨_, validateTextBlock_fails fs t hty htext hlen⟩
  · rw [validateContentBlock_image fs hI.1]
    exact validateImageBlock_fails fs hI
  · rw [validateContentBlock_tool_use fs hty]
    exact validateToolUseBlock_fails fs n hty hname hbad

/-- A violating member makes the block loop fail from any start index. -/
theorem validateBlocksFrom_fails (b : JVal) (h : ViolatingBlock b) :
    ∀ (blocks : List JVal), b ∈ blocks → ∀ i,
      ∃ e, validateBlocksFrom blocks i = VCheck.fail e := by
  intro blocks
  induction blocks with
  | nil => intro hmem i; simp at hmem
  | cons x xs ih =>
      intro hmem i
      rcases List.mem_cons.mp hmem with rfl | hmem2
      · rcases validateContentBlock_fails b h with ⟨e, he⟩
        unfold validateBlocksFrom
        rw [he]
        exact ⟨_, rfl⟩
      · unfold validateBlocksFrom
        cases hcb : validateContentBlock x with
        | fail e => exact ⟨_, rfl⟩
        | ok => exact ih hmem2 (i + 1)

/-- Violating content fails `validateMessageContent`. -/
theorem validateMessageContent_fails (c : JVal) (h : ViolatingContent c) :
    ∃ e, validateMessageContent c = VCheck.fail e := by
  rcases h with ⟨t, rfl, hlen⟩ | ⟨bs, rfl, b, hb, hvb⟩
  · refine ⟨"Message content exceeds maximum length", ?_⟩
    show (if t.length > MAX_MESSAGE_LENGTH then
        VCheck.fail "Message content exceeds maximum length"
      else VCheck.ok) = VCheck.fail "Message content exceeds maximum length"
    have hlen2 : t.length > MAX_MESSAGE_LENGTH := hlen
    rw [if_pos hlen2]
  · by_cases hlen : bs.length > MAX_BLOCKS_PER_MESSAGE
    · refine ⟨"Message has too many blocks (max " ++ toString MAX_BLOCKS_PER_MESSAGE ++ ")", ?_⟩
      show (if bs.length > MAX_BLOCKS_PER_MESSAGE then
          VCheck.fail ("Message has too many blocks (max " ++ toString MAX_BLOCKS_PER_MESSAGE ++ ")")
        else validateBlocksFrom bs 0) = _
      rw [if_pos hlen]
    · rcases validateBlocksFrom_fails b hvb bs hb 0 with ⟨e, he⟩
      refine ⟨e, ?_⟩
      show (if bs.length > MAX_BLOCKS_PER_MESSAGE then
          VCheck.fail ("Message has too many blocks (max " ++ toString MAX_BLOCKS_PER_MESSAGE ++ ")")
        else validateBlocksFrom bs 0) = VCheck.fail e
      rw [if_neg hlen]
      exact he

/-- Violating content yields a content error for its message. -/
theorem messageContentErrors_ne (msg : JVal) (i : Nat) (c : JVal)
    (hc : jsGet msg "content" = Option.some c) (h : ViolatingContent c) :
    messageContentErrors msg i ≠ [] := by
  unfold messageContentErrors
  rw [hc]
  show (match validateMessageContent c with
    | VCheck.ok => []
    | VCheck.fail e => ["messages[" ++ toString i ++ "]." ++ e]) ≠ []
  rcases validateMessageContent_fails c h with ⟨e, he⟩
  rw [he]
  simp

/-- A message object with violating content contributes an error. -/
theorem messageErrors_ne (fs : List (String × JVal)) (i : Nat) (c : JVal)
    (hc : jsGet (JVal.obj fs) "content" = Option.some c) (h : ViolatingContent c) :
    messageErrors (JVal.obj fs) i ≠ [] := by
  show (messageRoleErrors (JVal.obj fs) i ++ messageContentErrors (JVal.obj fs) i) ≠ []
  intro hnil
  rcases List.append_eq_nil.mp hnil with ⟨h1, h2⟩
  exact messageContentErrors_ne (JVal.obj fs) i c hc h h2

/-- A member whose errors are non-empty makes the message loop non-empty. -/
theorem messagesListErrors_ne (m : JVal) (hm : ∀ i, messageErrors m i ≠ []) :
    ∀ (msgs : List JVal), m ∈ msgs → ∀ i, messagesListErrors msgs i ≠ [] := by
  intro msgs
  induction msgs with
  | nil => intro hmem i; simp at hmem
  | cons x xs ih =>
      intro hmem i
      show (messageErrors x i ++ messagesListErrors xs (i + 1)) ≠ []
      intro hnil
      rcases List.append_eq_nil.mp hnil with ⟨h1, h2⟩
      rcases List.mem_cons.mp hmem with rfl | hmem2
      · exact hm i h1
      · exact ih hmem2 (i + 1) h2

/-- Missing `messages` is an error. -/
theorem messagesErrors_ne_missing (body : JVal)
    (h : jsGet body "messages" = Option.none) :
    messagesErrors body ≠ [] := by
  unfold messagesErrors
  rw [h]
  show (["messages is required"] : List String) ≠ []
  simp

/-- Empty `messages` is an error. -/
theorem messagesErrors_ne_empty (body : JVal)
    (h : jsGet body "messages" = Option.some (JVal.arr [])) :
    messagesErrors body ≠ [] := by
  unfold messagesErrors
  rw [h]
  show (["messages cannot be empty"] : List String) ≠ []
  simp

/-- More than 500 messages is an error. -/
theorem messagesErrors_ne_limit (body : JVal) (msgs : List JVal)
    (h : jsGet body "messages" = Option.some (JVal.arr msgs))
    (hlen : msgs.length > MAX_MESSAGES) :
    messagesErrors body ≠ [] := by
  unfold messagesErrors
  rw [h]
  show (if msgs.length == 0 then ["messages cannot be empty"]
    else if msgs.length > MAX_MESSAGES then
      ["messages exceeds limit of " ++ toString MAX_MESSAGES]
    else messagesListErrors msgs 0) ≠ []
  cases hz : (msgs.length == 0) with
  | true => simp
  | false =>
      show (if msgs.length > MAX_MESSAGES then
          ["messages exceeds limit of " ++ toString MAX_MESSAGES]
        else messagesListErrors msgs 0) ≠ []
      rw [if_pos hlen]
      simp

/-- A member with violating content makes the `messages` section non-empty. -/
theorem messagesErrors_ne_member (body : JVal) (msgs : List JVal) (m c : JVal)
    (hms : jsGet body "messages" = Option.some (JVal.arr msgs)) (hmem : m ∈ msgs)
    (hc : jsGet m "content" = Option.some c) (hvc : ViolatingContent c) :
    messagesErrors body ≠ [] := by
  by_cases hlim : msgs.length > MAX_MESSAGES
  · exact messagesErrors_ne_limit body msgs hms hlim
  · have hobj : ∃ fs, m = JVal.obj fs := by
      cases m with
      | obj fs => exact ⟨fs, rfl⟩
      | null => simp [jsGet] at hc
      | bool x => simp [jsGet] at hc
      | num x => simp [jsGet] at hc
      | str x => simp [jsGet] at hc
      | arr x => simp [jsGet] at hc
    rcases hobj with ⟨fs, rfl⟩
    unfold messagesErrors
    rw [hms]
    show (if msgs.length == 0 then ["messages cannot be empty"]
      else if msgs.length > MAX_MESSAGES then
        ["messages exceeds limit of " ++ toString MAX_MESSAGES]
      else messagesListErrors msgs 0) ≠ []
    have hz : (msgs.length == 0) = false := by
      cases msgs with
      | nil => cases hmem
      | cons a as => rfl
    rw [hz]
    show (if msgs.length > MAX_MESSAGES then
        ["messages exceeds limit of " ++ toString MAX_MESSAGES]
      else messagesListErrors msgs 0) ≠ []
    rw [if_neg hlim]
    exact messagesListErrors_ne (JVal.obj fs)
      (fun i => messageErrors_ne fs i c hc hvc) msgs hmem 0

/-- A bad integer field fails `isPositiveInt`. -/
theorem isPositiveInt_false (v : JVal) (lo hi : ℚ) (h : BadIntField v lo hi) :
    isPositiveInt (Option.some v) lo hi = false := by
  cases v with
  | num q =>
      show (q.den == 1 && !(decide (q < lo)) && !(decide (hi < q))) = false
      by_cases h1 : q.den = 1
      · by_cases h2 : lo ≤ q
        · by_cases h3 : q ≤ hi
          · exact absurd ⟨h1, h2, h3⟩ (h q rfl)
          · have hgt : hi < q := not_le.mp h3
            have hd : decide (hi < q) = true := decide_eq_true hgt
            rw [hd]
            simp
        · have hlt : q < lo := not_le.mp h2
          have hd : decide (q < lo) = true := decide_eq_true hlt
          rw [hd]
          simp
      · cases hd : (q.den == 1) with
        | false => simp
        | true => exact absurd (eq_of_beq hd) h1
  | null => rfl
  | bool b => rfl
  | str s => rfl
  | arr l => rfl
  | obj fs => rfl

/-- A bad numeric field fails `isNumberInRange`. -/
theorem isNumberInRange_false (v : JVal) (lo hi : ℚ) (h : BadNumField v lo hi) :
    isNumberInRange (Option.some v) lo hi = false := by
  cases v with
  | num q =>
      show (!(decide (q < lo)) && !(decide (hi < q))) = false
      by_cases h2 : lo ≤ q
      · by_cases h3 : q ≤ hi
        · exact absurd ⟨h2, h3⟩ (h q rfl)
        · have hgt : hi < q := not_le.mp h3
          have hd : decide (hi < q) = true := decide_eq_true hgt
          rw [hd]
          simp
      · have hlt : q < lo := not_le.mp h2
        have hd : decide (q < lo) = true := decide_eq_true hlt
        rw [hd]
        simp
  | null => rfl
  | bool b => rfl
  | str s => rfl
  | arr l => rfl
  | obj fs => rfl

/-- Bad `max_tokens` yields a section error. -/
theorem maxTokensErrors_ne (body : JVal) (v : JVal)
    (hv : jsGet body "max_tokens" = Option.some v) (hbad : BadIntField v 1 200000) :
    maxTokensErrors body ≠ [] := by
  have hcast : ((MAX_TOKENS_UPPER : ℚ)) = (200000 : ℚ) := by
    norm_num [MAX_TOKENS_UPPER]
  have hbad2 : BadIntField v 1 (MAX_TOKENS_UPPER : ℚ) := by
    rw [hcast]; exact hbad
  unfold maxTokensErrors
  rw [hv]
  show (if isPositiveInt (Option.some v) 1 (MAX_TOKENS_UPPER : ℚ) then []
    else ["max_tokens must be integer between 1 and " ++ toString MAX_TOKENS_UPPER]) ≠ []
  rw [isPositiveInt_false v 1 (MAX_TOKENS_UPPER : ℚ) hbad2]
  simp

/-- Bad `temperature` yields a section error. -/
theorem temperatureErrors_ne (body : JVal) (v : JVal)
    (hv : jsGet body "temperature" = Option.some v) (hbad : BadNumField v 0 2) :
    temperatureErrors body ≠ [] := by
  unfold temperatureErrors
  rw [hv]
  show (if isNumberInRange (Option.some v) 0 2 then []
    else ["temperature must be number between 0 and 2"]) ≠ []
  rw [isNumberInRange_false v 0 2 hbad]
  simp

/-- Bad `top_p` yields a section error. -/
theorem topPErrors_ne (body : JVal) (v : JVal)
    (hv : jsGet body "top_p" = Option.some v) (hbad : BadNumField v 0 1) :
    topPErrors body ≠ [] := by
  unfold topPErrors
  rw [hv]
  show (if isNumberInRange (Option.some v) 0 1 then []
    else ["top_p must be number between 0 and 1"]) ≠ []
  rw [isNumberInRange_false v 0 1 hbad]
  simp

/-- Bad `top_k` yields a section error. -/
theorem topKErrors_ne (body : JVal) (v : JVal)
    (hv : jsGet body "top_k" = Option.some v) (hbad : BadIntField v 1 500) :
    topKErrors body ≠ [] := by
  unfold topKErrors
  rw [hv]
  show (if isPositiveInt (Option.some v) 1 500 then []
    else ["top_k must be integer between 1 and 500"]) ≠ []
  rw [isPositiveInt_false v 1 500 hbad]
  simp

/-- More than 100 tools yields a section error. -/
theorem toolsErrors_ne (body : JVal) (ts : List JVal)
    (hv : jsGet body "tools" = Option.some (JVal.arr ts)) (hlen : ts.length > MAX_TOOLS) :
    toolsErrors body ≠ [] := by
  unfold toolsErrors
  rw [hv]
  show (if ts.length > MAX_TOOLS then ["tools exceeds limit of " ++ toString MAX_TOOLS]
    else toolDefErrors ts 0) ≠ []
  rw [if_pos hlen]
  simp

/-- Bad `thinking.budget_tokens` yields a section error. -/
theorem thinkingErrors_ne (body th b : JVal)
    (hth : jsGet body "thinking" = Option.some th) (hobj : typeofObject th = true)
    (hb : jsGet th "budget_tokens" = Option.some b)
    (hbad : BadIntField b 1000 100000) :
    thinkingErrors body ≠ [] := by
  unfold thinkingErrors
  rw [hth]
  show (if !typeofObject th then ["thinking must be an object"]
    else
      match jsGet th "budget_tokens" with
      | Option.none => []
      | Option.some b =>
          if isPositiveInt (Option.some b) 1000 100000 then []
          else ["thinking.budget_tokens must be integer between 1000 and 100000"]) ≠ []
  rw [hobj, hb]
  show (if isPositiveInt (Option.some b) 1000 100000 then []
    else ["thinking.budget_tokens must be integer between 1000 and 100000"]) ≠ []
  rw [isPositiveInt_false b 1000 100000 hbad]
  simp

/-- A model string matching no allowed prefix yields a section error. -/
theorem modelErrors_ne (body : JVal) (s : String)
    (hv : jsGet body "model" = Option.some (JVal.str s))
    (hnp : ∀ p ∈ allowedModelPrefixes, strStartsWith (strToLower s) p = false) :
    modelErrors body ≠ [] := by
  have hallow : isAllowedModel (Option.some (JVal.str s)) = false := by
    show (if s == "" then false
      else allowedModelPrefixes.any (fun p => strStartsWith (strToLower s) p)) = false
    cases he : (s == "") with
    | true => simp
    | false =>
        show allowedModelPrefixes.any (fun p => strStartsWith (strToLower s) p) = false
        cases hany : allowedModelPrefixes.any (fun p => strStartsWith (strToLower s) p) with
        | false => rfl
        | true =>
            exfalso
            rcases List.any_eq_true.mp hany with ⟨p, hp, hsp⟩
            rw [hnp p hp] at hsp
            simp at hsp
  unfold modelErrors
  rw [hv]
  show (if isAllowedModel (Option.some (JVal.str s)) then []
    else ["model '" ++ s ++ "' is not allowed."]) ≠ []
  rw [hallow]
  simp

/-- Any non-empty section makes `collectErrors` non-empty. -/
theorem collect_ne_of_part (body : JVal)
    (h : messagesErrors body ≠ [] ∨ modelErrors body ≠ [] ∨
      maxTokensErrors body ≠ [] ∨ temperatureErrors body ≠ [] ∨
      topPErrors body ≠ [] ∨ topKErrors body ≠ [] ∨
      streamErrors body ≠ [] ∨ systemErrors body ≠ [] ∨
      toolsErrors body ≠ [] ∨ thinkingErrors body ≠ []) :
    collectErrors body ≠ [] := by
  intro hnil
  rcases collectErrors_eq_nil body hnil with
    ⟨h1, h2, h3, h4, h5, h6, h7, h8, h9, h10⟩
  rcases h with h | h | h | h | h | h | h | h | h | h
  exacts [h h1, h h2, h h3, h h4, h h5, h h6, h h7, h h8, h h9, h h10]

end Proxy

namespace Proxy

/-! ## C2 — `validateMessages` rejects every violating body -/

/-- Modelled from the spec: the claim's disjunction of rejection conditions —
a dangerous key anywhere, nesting depth over 50, `messages`
missing/empty/over 500, a member with schema-violating content, a bad
`max_tokens`/`temperature`/`top_p`/`top_k`, more than 100 `tools`, a bad
`thinking.budget_tokens`, or a model matching no allowed prefix. -/
def C2Bad (body : JVal) : Prop :=
  containsDangerousKey body = true ∨
  maxNodeDepth body > 50 ∨
  jsGet body "messages" = Option.none ∨
  jsGet body "messages" = Option.some (JVal.arr []) ∨
  (∃ msgs, jsGet body "messages" = Option.some (JVal.arr msgs) ∧ msgs.length > 500) ∨
  (∃ msgs m c, jsGet body "messages" = Option.some (JVal.arr msgs) ∧ m ∈ msgs ∧
    jsGet m "content" = Option.some c ∧ ViolatingContent c) ∨
  (∃ v, jsGet body "max_tokens" = Option.some v ∧ BadIntField v 1 200000) ∨
  (∃ v, jsGet body "temperature" = Option.some v ∧ BadNumField v 0 2) ∨
  (∃ v, jsGet body "top_p" = Option.some v ∧ BadNumField v 0 1) ∨
  (∃ v, jsGet body "top_k" = Option.some v ∧ BadIntField v 1 500) ∨
  (∃ ts, jsGet body "tools" = Option.some (JVal.arr ts) ∧ ts.length > 100) ∨
  (∃ th b, jsGet body "thinking" = Option.some th ∧ typeofObject th = true ∧
    jsGet th "budget_tokens" = Option.some b ∧ BadIntField b 1000 100000) ∨
  (∃ s, jsGet body "model" = Option.some (JVal.str s) ∧
    ∀ p ∈ allowedModelPrefixes, strStartsWith (strToLower s) p = false)

/-- Any of the claim's conditions makes the modelled (non-throwing) value of
`validateMessages` an invalid result with a non-empty error list. -/
theorem rejectsBody_of_C2Bad (body : JVal) (h : C2Bad body) :
    RejectsBody body := by
  rcases h with hkey | hdepth | hmiss | hempty | ⟨msgs, hms, hlen⟩
    | ⟨msgs, m, c, hms, hmem, hc, hvc⟩ | ⟨v, hv, hbad⟩ | ⟨v, hv, hbad⟩
    | ⟨v, hv, hbad⟩ | ⟨v, hv, hbad⟩ | ⟨ts, ht, hlen⟩
    | ⟨th, b, hth, hobj, hb, hbad⟩ | ⟨s, hs, hnp⟩
  · exact ⟨["Prototype pollution attempt detected"],
      validateMessages_pollution body (hasPPFuel_of_key 51 body 0 hkey), by simp⟩
  · exact ⟨["Prototype pollution attempt detected"],
      validateMessages_pollution body (hasPPFuel_of_depth 51 body 0 (by omega)), by simp⟩
  · exact rejects_of_collect body (collect_ne_of_part body
      (Or.inl (messagesErrors_ne_missing body hmiss)))
  · exact rejects_of_collect body (collect_ne_of_part body
      (Or.inl (messagesErrors_ne_empty body hempty)))
  · exact rejects_of_collect body (collect_ne_of_part body
      (Or.inl (messagesErrors_ne_limit body msgs hms hlen)))
  · exact rejects_of_collect body (collect_ne_of_part body
      (Or.inl (messagesErrors_ne_member body msgs m c hms hmem hc hvc)))
  · exact rejects_of_collect body (collect_ne_of_part body
      (Or.inr (Or.inr (Or.inl (maxTokensErrors_ne body v hv hbad)))))
  · exact rejects_of_collect body (collect_ne_of_part body
      (Or.inr (Or.inr (Or.inr (Or.inl (temperatureErrors_ne body v hv hbad))))))
  · exact rejects_of_collect body (collect_ne_of_part body
      (Or.inr (Or.inr (Or.inr (Or.inr (Or.inl (topPErrors_ne body v hv hbad)))))))
  · exact rejects_of_collect body (collect_ne_of_part body
      (Or.inr (Or.inr (Or.inr (Or.inr (Or.inr (Or.inl (topKErrors_ne body v hv hbad))))))))
  · exact rejects_of_collect body (collect_ne_of_part body
      (Or.inr (Or.inr (Or.inr (Or.inr (Or.inr (Or.inr (Or.inr (Or.inr
        (Or.inl (toolsErrors_ne body ts ht hlen)))))))))))
  · exact rejects_of_collect body (collect_ne_of_part body
      (Or.inr (Or.inr (Or.inr (Or.inr (Or.inr (Or.inr (Or.inr (Or.inr
        (Or.inr (thinkingErrors_ne body th b hth hobj hb hbad)))))))))))
  · exact rejects_of_collect body (collect_ne_of_part body
      (Or.inr (Or.inl (modelErrors_ne body s hs hnp))))

/-- A body whose `tools` array contains `null`: `messages` is missing, so
the claim demands an invalid result, but the source throws instead. -/
def toolsNullBody : JVal := JVal.obj [("tools", JVal.arr [JVal.null])]

/-- Counterexample to claim C2: for the body `{"tools":[null]}` the claim's
condition `messages` is missing holds, yet `validateMessages` does not
return an invalid result — it throws a `TypeError` at `tool.name`
(validators.js line 474), and the route's catch answers 500 `api_error`
instead of a validation rejection. -/
theorem C2_counterexample :
    C2Bad toolsNullBody ∧ validateMessagesRun toolsNullBody = Option.none :=
  ⟨Or.inr (Or.inr (Or.inl rfl)), rfl⟩

/-- C2 (amended): on every run of `validateMessages` that does not hit a
null-property `TypeError` (no `null` element of an array `tools` or
`system`, `thinking` not `null`, body not `null`), the function returns an
invalid result carrying at least one human-readable error message for every
body exhibiting any of the claim's violations: a prototype-pollution key
anywhere, nesting depth over 50, `messages` missing/empty/longer than 500, a
schema-violating content block (text over 2 MB, base64 image over 10 MB or
with a media type outside jpeg/png/gif/webp, tool name empty, over 256
chars, or outside `[A-Za-z0-9_-]`), `max_tokens` not an integer in
[1, 200000], `temperature` outside [0, 2], `top_p` outside [0, 1], `top_k`
not an integer in [1, 500], more than 100 `tools`,
`thinking.budget_tokens` not an integer in [1000, 100000], or a model
matching no allowed prefix.  A body that does hit a null site makes
`validateMessages` throw instead (see the counterexample). -/
theorem C2_validateMessages_rejects (body : JVal) (h : C2Bad body)
    (hsafe : validateMessagesThrows body = false) :
    ∃ errs, validateMessagesRun body = Option.some (VResult.invalid errs) ∧
      errs ≠ [] := by
  rcases rejectsBody_of_C2Bad body h with ⟨errs, he, hne⟩
  refine ⟨errs, ?_, hne⟩
  unfold validateMessagesRun
  rw [hsafe, he]
  rfl

/-- Witness: the empty JSON object hits no throwing site and has no
`messages` field; `validateMessages` rejects it with a non-empty error
list. -/
theorem C2_validateMessages_rejects_witness :
    ∃ errs, validateMessagesRun (JVal.obj []) =
      Option.some (VResult.invalid errs) ∧ errs ≠ [] :=
  C2_validateMessages_rejects (JVal.obj []) (Or.inr (Or.inr (Or.inl rfl))) rfl

end Proxy

namespace Proxy

/-! ## C4 — routing by model prefix -/

/-- A successful validation returns exactly the defaulted body. -/
theorem validateMessages_ok_data (body data : JVal)
    (h : validateMessages body = VResult.ok data) : data = applyDefaults body := by
  unfold validateMessages at h
  split at h
  · exact absurd h (by simp)
  · split at h
    · rw [VResult.ok.injEq] at h
      exact h.symm
    · exact absurd h (by simp)

/-- Counterexample to claim C4: the gateway check is case-sensitive, so
`Gemma-2b` — whose lowercasing starts with `gemma-`, which the claim routes
to the local gateway — instead reaches validation and is rejected 400
(`gemma-` is not on the allow-list), while `LOCAL-x` — whose lowercasing
starts with `local-` — is not routed to the gateway either: it passes the
case-insensitive allow-list and is dispatched to Cloud-Code. -/
theorem C4_counterexample :
    strStartsWith (strToLower "Gemma-2b") "gemma-" = true ∧
    routeMessagesRun gemmaCapBody =
      Option.some (RouteOutcome.badRequest "model 'Gemma-2b' is not allowed.") ∧
    strStartsWith (strToLower "LOCAL-x") "local-" = true ∧
    routeMessagesRun (simpleBody "LOCAL-x") =
      Option.some (RouteOutcome.dispatch "LOCAL-x"
        (applyDefaults (simpleBody "LOCAL-x"))) := by
  refine ⟨rfl, rfl, rfl, rfl⟩

/-- C4 (amended): the gateway check is CASE-SENSITIVE — a request is routed
to the local gateway iff its model literally starts with `local-` or
`gemma-`, decided before validation and hence before any throwing site.
Models failing that check are validated: the whitelist is case-insensitive
over `claude-`, `gemini-`, `gpt-os-`, `gpt-4-`, `local-`, `lmstudio-`,
`deepseek-`, `qwen-` (note: `local-` is included, `gemma-` is not); on a
non-throwing run a model matching no allowed prefix is rejected as a 400
`invalid_request_error`, and a body that validates is dispatched to
Cloud-Code carrying its model id. -/
theorem C4_routing (body : JVal) (s : String)
    (hm : jsGet body "model" = Option.some (JVal.str s)) :
    (routeMessagesRun body = Option.some RouteOutcome.localGateway ↔
      (strStartsWith s "local-" || strStartsWith s "gemma-") = true) ∧
    ((strStartsWith s "local-" || strStartsWith s "gemma-") = false →
      isAllowedModel (Option.some (JVal.str s)) = false →
      validateMessagesThrows body = false →
      ∃ msg, routeMessagesRun body = Option.some (RouteOutcome.badRequest msg)) ∧
    (∀ data, validateMessages body = VResult.ok data →
      (strStartsWith s "local-" || strStartsWith s "gemma-") = false →
      validateMessagesThrows body = false →
      routeMessagesRun body = Option.some (RouteOutcome.dispatch
        (if s != "" then s else DEFAULT_MODEL) data)) ∧
    (isAllowedModel (Option.some (JVal.str s)) = true ↔
      (s ≠ "" ∧ (allowedModelPrefixes.any
        (fun p => strStartsWith (strToLower s) p)) = true)) := by
  refine ⟨?_, ?_, ?_, ?_⟩
  · constructor
    · intro hgw
      by_contra hpre
      have hpre' : (strStartsWith s "local-" || strStartsWith s "gemma-") = false := by
        simpa using hpre
      unfold routeMessagesRun at hgw
      rw [hm] at hgw
      have hgw' : (if (s != "" && (strStartsWith s "local-" || strStartsWith s "gemma-")) = true
          then Option.some RouteOutcome.localGateway
          else if validateMessagesThrows body then Option.none
          else Option.some (routeValidated body)) =
          Option.some RouteOutcome.localGateway := hgw
      rw [hpre'] at hgw'
      simp only [Bool.and_false] at hgw'
      cases hth : validateMessagesThrows body with
      | true =>
          rw [hth] at hgw'
          simp at hgw'
      | false =>
          rw [hth] at hgw'
          simp at hgw'
          exact routeValidated_ne_gateway body hgw'
    · intro hpre
      unfold routeMessagesRun
      rw [hm]
      show (if (s != "" && (strStartsWith s "local-" || strStartsWith s "gemma-")) = true
          then Option.some RouteOutcome.localGateway
          else if validateMessagesThrows body then Option.none
          else Option.some (routeValidated body)) =
        Option.some RouteOutcome.localGateway
      have hs : (s != "") = true := by
        by_cases h0 : s = ""
        · subst h0
          exact absurd hpre (by decide)
        · simpa using h0
      rw [hpre, hs]
      rfl
  · intro hpre hallow hsafe
    have hme : modelErrors body ≠ [] := by
      unfold modelErrors
      rw [hm]
      show (if isAllowedModel (Option.some (JVal.str s)) = true then []
        else ["model '" ++ s ++ "' is not allowed."]) ≠ []
      rw [hallow]
      simp
    have hcoll : collectErrors body ≠ [] := by
      intro hc
      exact hme (collectErrors_eq_nil body hc).2.1
    rcases rejects_of_collect body hcoll with ⟨errs, hv, _⟩
    refine ⟨errs.headD "", ?_⟩
    unfold routeMessagesRun
    rw [hm]
    show (if (s != "" && (strStartsWith s "local-" || strStartsWith s "gemma-")) = true
        then Option.some RouteOutcome.localGateway
        else if validateMessagesThrows body then Option.none
        else Option.some (routeValidated body)) =
      Option.some (RouteOutcome.badRequest (errs.headD ""))
    rw [hpre, hsafe]
    simp only [Bool.and_false]
    show Option.some (routeValidated body) =
      Option.some (RouteOutcome.badRequest (errs.headD ""))
    rw [routeValidated_badRequest body errs hv]
  · intro data hok hpre hsafe
    have hdata : data = applyDefaults body := validateMessages_ok_data body data hok
    have hdm : jsGet data "model" = Option.some (JVal.str s) := by
      rw [hdata, jsGet_applyDefaults_model body]
      exact hm
    unfold routeMessagesRun
    rw [hm]
    show (if (s != "" && (strStartsWith s "local-" || strStartsWith s "gemma-")) = true
        then Option.some RouteOutcome.localGateway
        else if validateMessagesThrows body then Option.none
        else Option.some (routeValidated body)) =
      Option.some (RouteOutcome.dispatch (if s != "" then s else DEFAULT_MODEL) data)
    rw [hpre, hsafe]
    simp only [Bool.and_false]
    show Option.some (routeValidated body) =
      Option.some (RouteOutcome.dispatch (if s != "" then s else DEFAULT_MODEL) data)
    unfold routeValidated
    rw [hok]
    show Option.some (RouteOutcome.dispatch
        (match jsGet data "model" with
         | Option.some (JVal.str s) => if s != "" then s else DEFAULT_MODEL
         | _ => DEFAULT_MODEL) data) =
      Option.some (RouteOutcome.dispatch (if s != "" then s else DEFAULT_MODEL) data)
    rw [hdm]
  · unfold isAllowedModel
    show (if (s == "") = true then false
      else allowedModelPrefixes.any (fun p => strStartsWith (strToLower s) p)) = true ↔ _
    by_cases h0 : s = ""
    · subst h0
      simp
    · have hne : (s == "") = false := by simpa using h0
      rw [hne]
      simp [h0]

/-- Witness for C4 (amended): a lowercase `local-` model is routed to the
gateway. -/
theorem C4_routing_witness :
    routeMessagesRun (simpleBody "local-mistral") =
      Option.some RouteOutcome.localGateway :=
  ((C4_routing (simpleBody "local-mistral") "local-mistral" (by rfl)).1).mpr (by rfl)

end Proxy
